import Mathlib

/-!
# Shape inference of the LSTMP operator

A shallow embedding of `paddle/fluid/operators/lstmp_op.cc`: the forward shape
inference `LSTMPOp::InferShape`, the backward shape inference
`LSTMPGradOp::InferShape` and the configuration schema built by
`LSTMPOpMaker::Make`.

The source manipulates a `framework::InferShapeContext` through a handful of
member functions.  The context is embedded as a record of slot tables, the
member functions as state-passing computations that either return or throw, and
the two `InferShape` bodies are transcribed statement by statement on top of
them.
-/

namespace paddle

/-! ## Framework types used by the operator -/

/-- Tensor shape (`framework::DDim`): the list of its extents.  Every extent is
an `int64_t`; the rank is the length of the list. -/
abbrev DDim := List Int

/-- Offset table (`framework::LoD`): one list of offsets per nesting level. -/
abbrev LoD := List (List Nat)

/-- What shape inference can see and change of the variable bound to a slot: its
shape and its offset table. -/
structure Variable where
  dims : DDim
  lod : LoD
deriving DecidableEq, Repr

/-- An attribute value (`framework::Attribute`), restricted to the two
alternatives this operator declares. -/
inductive Attribute where
  | bool (b : Bool)
  | str (s : String)
deriving DecidableEq, Repr

/-- The ways a call can end other than by returning.

* `EnforceNotMet`: a `PADDLE_ENFORCE*` check failed; carries the message
  (format string, arguments not substituted).
* `invalid_argument`: `DDim::operator[]` was called with an index that is not
  smaller than the rank. -/
inductive Failure where
  | EnforceNotMet (msg : String)
  | invalid_argument (msg : String)
deriving DecidableEq, Repr

/-- Modelled from the spec: `framework::InferShapeContext` is declared outside
`lstmp_op.cc`.  Each input and output slot holds at most one variable (`none`
when the slot is empty); the attribute map gives the operator's options.
Distinct slots are distinct variables. -/
structure InferShapeContext where
  inputs : String → Option Variable
  outputs : String → Option Variable
  attrs : String → Option Attribute

/-- A computation over the context: from the context at entry to either a
returned value or a `Failure`, together with the context at exit.  The exit
context is kept on failure as well, since writes made before a throw stay. -/
def Exec (α : Type) : Type := InferShapeContext → Except Failure α × InferShapeContext

/-- Return `a`, leaving the context alone. -/
def Exec.pure {α : Type} (a : α) : Exec α := fun ctx => (.ok a, ctx)

/-- Run `x`; when it returns, continue with `f`; when it throws, stop there. -/
def Exec.bind {α β : Type} (x : Exec α) (f : α → Exec β) : Exec β := fun ctx =>
  match x ctx with
  | (.ok a, ctx1) => f a ctx1
  | (.error e, ctx1) => (.error e, ctx1)

instance : Monad Exec where
  pure := Exec.pure
  bind := Exec.bind

/-- End the call with `e`. -/
def throw {α : Type} (e : Failure) : Exec α := fun ctx => (.error e, ctx)

/-! ## Arithmetic on machine integers -/

/-- Conversion of an `int64_t` to `int`: the value modulo `2^32`, taken in
`[-2^31, 2^31)`. -/
def int64_to_int (x : Int) : Int := (x + 2147483648) % 4294967296 - 2147483648

/-- Multiplication of two `int` values.  The source has a plain `int` product,
no range check, and the compiled code keeps the low 32 bits of the exact
product: the product modulo `2^32`, taken in `[-2^31, 2^31)`.  It is the exact
product whenever that fits in `int`. -/
def int_mul (a b : Int) : Int := int64_to_int (a * b)

/-! ## Member functions of the context and of `DDim` -/

/-- Modelled from the spec: `DDim::size()`, the rank. -/
def DDim.size (d : DDim) : Int := (d.length : Int)

/-- Modelled from the spec: `DDim::operator[]`.  Reading at an index that is
not smaller than the rank throws `std::invalid_argument`. -/
def DDim.at (d : DDim) (idx : Nat) : Exec Int :=
  match d.get? idx with
  | some v => Exec.pure v
  | none => throw (.invalid_argument "Invalid index")

/-- Modelled from the spec: `InferShapeContext::HasInput`. -/
def HasInput (name : String) : Exec Bool := fun ctx => (.ok (ctx.inputs name).isSome, ctx)

/-- Modelled from the spec: `InferShapeContext::HasOutput`. -/
def HasOutput (name : String) : Exec Bool := fun ctx => (.ok (ctx.outputs name).isSome, ctx)

/-- Modelled from the spec: `InferShapeContext::GetInputDim`.  The framework
enforces that the slot holds one variable. -/
def GetInputDim (name : String) : Exec DDim := fun ctx =>
  match ctx.inputs name with
  | some v => (.ok v.dims, ctx)
  | none => (.error (.EnforceNotMet "Input should hold one element"), ctx)

/-- Modelled from the spec: `InferShapeContext::SetOutputDim`.  The framework
enforces that the slot holds one variable; only that variable's shape is
replaced. -/
def SetOutputDim (name : String) (dim : DDim) : Exec Unit := fun ctx =>
  match ctx.outputs name with
  | some v =>
    (.ok (), { ctx with
      outputs := fun n => if n = name then some { v with dims := dim } else ctx.outputs n })
  | none => (.error (.EnforceNotMet "Output should hold one element"), ctx)

/-- Modelled from the spec: `InferShapeContext::ShareLoD`.  The offset table of
input slot `inp` is copied to output slot `out`; a variable must be bound to
both slots. -/
def ShareLoD (inp out : String) : Exec Unit := fun ctx =>
  match ctx.inputs inp, ctx.outputs out with
  | some i, some o =>
    (.ok (), { ctx with
      outputs := fun n => if n = out then some { o with lod := i.lod } else ctx.outputs n })
  | _, _ => (.error (.EnforceNotMet "ShareLoD on an empty slot"), ctx)

/-- Modelled from the spec: `ctx->Attrs().Get<bool>(name)`.  Throws when the
map has no such attribute or the attribute does not hold a `bool`. -/
def Attrs_Get_bool (name : String) : Exec Bool := fun ctx =>
  match ctx.attrs name with
  | some (.bool b) => (.ok b, ctx)
  | _ => (.error (.EnforceNotMet "attribute should be in AttributeMap"), ctx)

/-- Modelled from the spec: `framework::GradVarName`, which appends the
gradient suffix. -/
def GradVarName (name : String) : String := name ++ "@GRAD"

/-- The macro `PADDLE_ENFORCE(cond, msg)`. -/
def PADDLE_ENFORCE (cond : Bool) (msg : String) : Exec Unit :=
  if cond then Exec.pure () else throw (.EnforceNotMet msg)

/-- The macro `PADDLE_ENFORCE_EQ(a, b, msg)` on integers (both sides are
compared as `int64_t`). -/
def PADDLE_ENFORCE_EQ (a b : Int) (msg : String) : Exec Unit :=
  if a = b then Exec.pure () else throw (.EnforceNotMet msg)

/-! ## `LSTMPOp::InferShape` -/

/-- Forward shape inference, `LSTMPOp::InferShape` (lines 25-107). -/
def LSTMPOp.InferShape : Exec Unit := do
  PADDLE_ENFORCE (← HasInput "Input")
    "Input(Input) of LSTMP operator should not be null."
  PADDLE_ENFORCE (← HasInput "Weight")
    "Input(Weight) of LSTMP operator should not be null."
  PADDLE_ENFORCE (← HasInput "ProjWeight")
    "Input(ProjWeight) of LSTMP operator should not be null."
  PADDLE_ENFORCE (← HasInput "Bias")
    "Input(Bias) of LSTMP operator should not be null."
  PADDLE_ENFORCE (← HasOutput "Projection")
    "Output(Projection) of LSTMP operator should not be null."
  PADDLE_ENFORCE (← HasOutput "Cell")
    "Output(Cell) of LSTMP operator should not be null."
  PADDLE_ENFORCE (← HasOutput "BatchGate")
    "Output(BatchGate) of LSTMP operator should not be null."
  PADDLE_ENFORCE (← HasOutput "BatchCellPreAct")
    "Output(BatchCellPreAct) of LSTMP operator should not be null."
  PADDLE_ENFORCE (← HasOutput "BatchHidden")
    "Output(BatchHidden) of LSTMP operator should not be null."
  let in_dims ← GetInputDim "Input"
  PADDLE_ENFORCE_EQ in_dims.size 2
    "Input(X)'s rank of LSTMP operator must be 2."
  let frame_size : Int := int64_to_int (Int.tdiv (← in_dims.at 1) 4)
  let w_dims ← GetInputDim "Weight"
  let proj_dims ← GetInputDim "ProjWeight"
  PADDLE_ENFORCE_EQ w_dims.size 2
    "The rank of Input(Weight) should be 2."
  PADDLE_ENFORCE_EQ (← w_dims.at 0) (← proj_dims.at 1)
    "The first dimension of Input(Weight) should be %d."
  PADDLE_ENFORCE_EQ (← w_dims.at 1) (int_mul 4 frame_size)
    "The second dimension of Input(Weight) should be 4 * %d."
  PADDLE_ENFORCE_EQ proj_dims.size 2
    "The rank of Input(ProjWeight) should be 2."
  PADDLE_ENFORCE_EQ (← proj_dims.at 0) frame_size
    "The first dimension of Input(ProjWeight) should be %d."
  if (← HasInput "H0") then
    PADDLE_ENFORCE (← HasInput "C0")
      "Input(C0) of LSTMP operator should not be null after Input(H0) provided."
    let h_dims ← GetInputDim "H0"
    let _c_dims ← GetInputDim "C0"
    SetOutputDim "OrderedP0" [← h_dims.at 0, ← proj_dims.at 1]
  let b_dims ← GetInputDim "Bias"
  PADDLE_ENFORCE_EQ b_dims.size 2
    "The rank of Input(Bias) should be 2."
  PADDLE_ENFORCE_EQ (← b_dims.at 0) 1
    "The first dimension of Input(Bias) should be 1."
  if (← Attrs_Get_bool "use_peepholes") then
    PADDLE_ENFORCE_EQ (← b_dims.at 1) (int_mul 7 frame_size)
      "The second dimension of Input(Bias) should be 7 * %d if enable peepholes connection"
  else
    PADDLE_ENFORCE_EQ (← b_dims.at 1) (int_mul 4 frame_size)
      "The second dimension of Input(Bias) should be 4 * %d if disable peepholes connection"
  let out_dims : DDim := [← in_dims.at 0, frame_size]
  let proj_out_dims : DDim := [← in_dims.at 0, ← proj_dims.at 1]
  SetOutputDim "Projection" proj_out_dims
  SetOutputDim "Cell" out_dims
  SetOutputDim "BatchGate" in_dims
  SetOutputDim "BatchCellPreAct" out_dims
  SetOutputDim "BatchHidden" out_dims
  ShareLoD "Input" "Projection"
  ShareLoD "Input" "Cell"

/-! ## `LSTMPGradOp::InferShape` -/

/-- The local lambda `SetOutGradDim` of `LSTMPGradOp::InferShape`
(lines 293-297). -/
def SetOutGradDim (name : String) : Exec Unit := do
  let g_name := GradVarName name
  if (← HasOutput g_name) then
    SetOutputDim g_name (← GetInputDim name)

/-- Backward shape inference, `LSTMPGradOp::InferShape` (lines 274-305). -/
def LSTMPGradOp.InferShape : Exec Unit := do
  PADDLE_ENFORCE (← HasInput "Input")
    "Input(Input) of LSTMP operator should not be null."
  PADDLE_ENFORCE (← HasInput "Projection")
    "Input(Projection) of LSTMP operator should not be null."
  PADDLE_ENFORCE (← HasInput "Cell")
    "Input(Cell) of LSTMP operator should not be null."
  PADDLE_ENFORCE (← HasInput "Weight")
    "Input(Weight) of LSTMP operator should not be null."
  PADDLE_ENFORCE (← HasInput "ProjWeight")
    "Input(ProjWeight) of LSTMP operator should not be null."
  PADDLE_ENFORCE (← HasInput "Bias")
    "Input(Bias) of LSTMP operator should not be null."
  PADDLE_ENFORCE (← HasInput "BatchGate")
    "Input(BatchGate) of LSTMP operator should not be null."
  PADDLE_ENFORCE (← HasInput "BatchCellPreAct")
    "Input(BatchGate) of LSTMP operator should not be null."
  SetOutGradDim "Input"
  SetOutGradDim "Weight"
  SetOutGradDim "ProjWeight"
  SetOutGradDim "Bias"
  SetOutGradDim "H0"
  SetOutGradDim "C0"

/-! ## `LSTMPOpMaker::Make` -/

/-- A declared input or output slot of the operator schema (`OpProto::Var`). -/
structure VarProto where
  name : String
  dispensable : Bool
  intermediate : Bool
deriving DecidableEq, Repr

/-- The value type an attribute is declared with (`AddAttr<T>`). -/
inductive AttrType where
  | BOOLEAN
  | STRING
deriving DecidableEq, Repr

/-- A declared attribute: its name, its type, the default set by `SetDefault`
and the value list set by `InEnum` (`none` when the call is absent). -/
structure AttrProto where
  name : String
  type : AttrType
  default : Option Attribute
  in_enum : Option (List String)
deriving DecidableEq, Repr

/-- The schema `Make` fills in: declarations in the order they are added. -/
structure OpProto where
  inputs : List VarProto
  outputs : List VarProto
  attrs : List AttrProto
deriving DecidableEq, Repr

/-- Apply `f` to the last element of a list, which is the declaration the
chained setter calls refer to. -/
def onLast {α : Type} (f : α → α) : List α → List α
  | [] => []
  | [a] => [f a]
  | a :: b :: l => a :: onLast f (b :: l)

/-- The call `AddInput(name, comment)`. -/
def AddInput (name : String) (p : OpProto) : OpProto :=
  { p with inputs := p.inputs ++ [{ name := name, dispensable := false, intermediate := false }] }

/-- The call `.AsDispensable()` chained on `AddInput`. -/
def AsDispensable (p : OpProto) : OpProto :=
  { p with inputs := onLast (fun v => { v with dispensable := true }) p.inputs }

/-- The call `AddOutput(name, comment)`. -/
def AddOutput (name : String) (p : OpProto) : OpProto :=
  { p with outputs := p.outputs ++ [{ name := name, dispensable := false, intermediate := false }] }

/-- The call `.AsIntermediate()` chained on `AddOutput`. -/
def AsIntermediate (p : OpProto) : OpProto :=
  { p with outputs := onLast (fun v => { v with intermediate := true }) p.outputs }

/-- The call `AddAttr<T>(name, comment)`. -/
def AddAttr (type : AttrType) (name : String) (p : OpProto) : OpProto :=
  { p with attrs := p.attrs ++ [{ name := name, type := type, default := none, in_enum := none }] }

/-- The call `.SetDefault(value)` chained on `AddAttr`. -/
def SetDefault (value : Attribute) (p : OpProto) : OpProto :=
  { p with attrs := onLast (fun a => { a with default := some value }) p.attrs }

/-- The call `.InEnum(values)` chained on `AddAttr`. -/
def InEnum (values : List String) (p : OpProto) : OpProto :=
  { p with attrs := onLast (fun a => { a with in_enum := some values }) p.attrs }

/-- The schema built by `LSTMPOpMaker::Make` (lines 119-216; the comment
strings are documentation and are left out). -/
def LSTMPOpMaker.Make : OpProto :=
  ({ inputs := [], outputs := [], attrs := [] } : OpProto)
    |> AddInput "Input"
    |> AddInput "H0" |> AsDispensable
    |> AddInput "C0" |> AsDispensable
    |> AddInput "Weight"
    |> AddInput "ProjWeight"
    |> AddInput "Bias"
    |> AddOutput "Projection"
    |> AddOutput "Cell"
    |> AddOutput "BatchGate" |> AsIntermediate
    |> AddOutput "BatchCellPreAct" |> AsIntermediate
    |> AddOutput "BatchHidden" |> AsIntermediate
    |> AddOutput "OrderedP0" |> AsIntermediate
    |> AddAttr .BOOLEAN "use_peepholes" |> SetDefault (.bool true)
    |> AddAttr .BOOLEAN "is_reverse" |> SetDefault (.bool false)
    |> AddAttr .STRING "gate_activation" |> SetDefault (.str "sigmoid")
      |> InEnum ["sigmoid", "tanh", "relu", "identity"]
    |> AddAttr .STRING "cell_activation" |> SetDefault (.str "tanh")
      |> InEnum ["sigmoid", "tanh", "relu", "identity"]
    |> AddAttr .STRING "candidate_activation" |> SetDefault (.str "tanh")
      |> InEnum ["sigmoid", "tanh", "relu", "identity"]
    |> AddAttr .STRING "proj_activation" |> SetDefault (.str "tanh")
      |> InEnum ["sigmoid", "tanh", "relu", "identity"]

/-- The declaration of the attribute called `name`, when there is one. -/
def OpProto.attr (p : OpProto) (name : String) : Option AttrProto :=
  p.attrs.find? (fun a => a.name == name)

/-- Whether the checker of a declared attribute accepts `value`: the value has
the declared type and, when `InEnum` was called, is one of the listed values. -/
def AttrProto.accepts (a : AttrProto) (value : Attribute) : Bool :=
  match a.type, value with
  | .BOOLEAN, .bool _ => true
  | .STRING, .str s =>
    match a.in_enum with
    | some values => values.contains s
    | none => true
  | _, _ => false

/-! ## Contexts reached by the two calls -/

/-- The context after `SetOutputDim name dim` returned. -/
def InferShapeContext.withDim (s : InferShapeContext) (name : String) (dim : DDim) :
    InferShapeContext :=
  { s with outputs := fun n =>
      if n = name then (s.outputs name).map (fun v => { v with dims := dim }) else s.outputs n }

/-- The context after `ShareLoD` copied the offset table `lod` to `out`. -/
def InferShapeContext.withLoD (s : InferShapeContext) (out : String) (lod : LoD) :
    InferShapeContext :=
  { s with outputs := fun n =>
      if n = out then (s.outputs out).map (fun v => { v with lod := lod }) else s.outputs n }

/-- The context with input slot `name` rebound to `v`. -/
def InferShapeContext.setInput (s : InferShapeContext) (name : String) (v : Option Variable) :
    InferShapeContext :=
  { s with inputs := fun n => if n = name then v else s.inputs n }

/-- The checks a forward call passes before it returns, stated on the entry
context: `inp`, `w`, `pw`, `b` are the variables bound to `Input`, `Weight`,
`ProjWeight`, `Bias`; `T`, `c` are the two extents of `Input`; `D` is
`frame_size`; `P` is the second extent of `ProjWeight`; `pe` is
`use_peepholes`. -/
structure ForwardChecks (s : InferShapeContext) (inp w pw b : Variable) (T c P D : Int)
    (pe : Bool) : Prop where
  input : s.inputs "Input" = some inp
  weight : s.inputs "Weight" = some w
  projWeight : s.inputs "ProjWeight" = some pw
  bias : s.inputs "Bias" = some b
  outProjection : (s.outputs "Projection").isSome = true
  outCell : (s.outputs "Cell").isSome = true
  outBatchGate : (s.outputs "BatchGate").isSome = true
  outBatchCellPreAct : (s.outputs "BatchCellPreAct").isSome = true
  outBatchHidden : (s.outputs "BatchHidden").isSome = true
  in_dims : inp.dims = [T, c]
  frame_size : D = int64_to_int (Int.tdiv c 4)
  w_dims : w.dims = [P, int_mul 4 D]
  proj_dims : pw.dims = [D, P]
  h0 : ∀ h, s.inputs "H0" = some h →
    (s.inputs "C0").isSome = true ∧ (∃ N, h.dims.get? 0 = some N)
      ∧ (s.outputs "OrderedP0").isSome = true
  use_peepholes : s.attrs "use_peepholes" = some (.bool pe)
  b_dims : b.dims = [1, if pe = true then int_mul 7 D else int_mul 4 D]

/-- The context after the `if (ctx->HasInput("H0"))` block (lines 72-79). -/
def afterH0 (s : InferShapeContext) (P : Int) : InferShapeContext :=
  match s.inputs "H0" with
  | some h => s.withDim "OrderedP0" [h.dims.headD 0, P]
  | none => s

/-- The context a forward call returns with (lines 98-106 applied after the
`H0` block). -/
def forwardResult (s : InferShapeContext) (inp : Variable) (T P D : Int) : InferShapeContext :=
  (((((((afterH0 s P).withDim "Projection" [T, P]).withDim "Cell" [T, D]).withDim
    "BatchGate" inp.dims).withDim "BatchCellPreAct" [T, D]).withDim
    "BatchHidden" [T, D]).withLoD "Projection" inp.lod).withLoD "Cell" inp.lod

/-- The context after `SetOutGradDim name` returned: when the gradient slot of
`name` holds a variable, its shape becomes the shape of input `name`. -/
def gradStep (s : InferShapeContext) (name : String) : InferShapeContext :=
  match s.outputs (GradVarName name), s.inputs name with
  | some _, some v => s.withDim (GradVarName name) v.dims
  | _, _ => s

/-- The context a backward call returns with (lines 299-304). -/
def backwardResult (s : InferShapeContext) : InferShapeContext :=
  gradStep (gradStep (gradStep (gradStep (gradStep (gradStep s "Input") "Weight") "ProjWeight")
    "Bias") "H0") "C0"

/-- The names whose gradient slots `LSTMPGradOp::InferShape` fills. -/
def gradNames : List String := ["Input", "Weight", "ProjWeight", "Bias", "H0", "C0"]

/-- The inputs `LSTMPGradOp::InferShape` requires. -/
def backwardRequired : List String :=
  ["Input", "Projection", "Cell", "Weight", "ProjWeight", "Bias", "BatchGate", "BatchCellPreAct"]

/-- The inputs `LSTMPOp::InferShape` requires. -/
def forwardRequiredInputs : List String := ["Input", "Weight", "ProjWeight", "Bias"]

/-- The outputs `LSTMPOp::InferShape` requires. -/
def forwardRequiredOutputs : List String :=
  ["Projection", "Cell", "BatchGate", "BatchCellPreAct", "BatchHidden"]

/-! ## Example contexts -/

/-- A context from slot tables given as association lists. -/
def mkContext (ins outs : List (String × Variable)) (attrs : List (String × Attribute)) :
    InferShapeContext :=
  { inputs := fun n => ins.lookup n
    outputs := fun n => outs.lookup n
    attrs := fun n => attrs.lookup n }

/-- An output variable nothing has been recorded for yet. -/
def blank : Variable := { dims := [], lod := [] }

/-- The six forward outputs, all blank. -/
def blankOutputs : List (String × Variable) :=
  [("Projection", blank), ("Cell", blank), ("BatchGate", blank),
   ("BatchCellPreAct", blank), ("BatchHidden", blank), ("OrderedP0", blank)]

/-- A well-formed forward call: `T = 3`, `D = 2`, `P = 5`, peepholes on, no
initial state. -/
def ctxPlain : InferShapeContext :=
  mkContext
    [("Input", { dims := [3, 8], lod := [[0, 1, 3]] }),
     ("Weight", { dims := [5, 8], lod := [] }),
     ("ProjWeight", { dims := [2, 5], lod := [] }),
     ("Bias", { dims := [1, 14], lod := [] })]
    blankOutputs
    [("use_peepholes", .bool true)]

/-- The same call with an initial state for `N = 2` sequences. -/
def ctxInit : InferShapeContext :=
  mkContext
    [("Input", { dims := [3, 8], lod := [[0, 1, 3]] }),
     ("H0", { dims := [2, 5], lod := [] }),
     ("C0", { dims := [2, 2], lod := [] }),
     ("Weight", { dims := [5, 8], lod := [] }),
     ("ProjWeight", { dims := [2, 5], lod := [] }),
     ("Bias", { dims := [1, 14], lod := [] })]
    blankOutputs
    [("use_peepholes", .bool true)]

/-- A forward call whose `Input` is 9 wide, which is not a multiple of four;
the other shapes are those that fit `D = 2`, `P = 5`. -/
def ctxOdd : InferShapeContext :=
  mkContext
    [("Input", { dims := [3, 9], lod := [[0, 1, 3]] }),
     ("Weight", { dims := [5, 8], lod := [] }),
     ("ProjWeight", { dims := [2, 5], lod := [] }),
     ("Bias", { dims := [1, 14], lod := [] })]
    blankOutputs
    [("use_peepholes", .bool true)]

/-- A forward call with `H0` given and `C0` left out. -/
def ctxNoC0 : InferShapeContext :=
  mkContext
    [("Input", { dims := [3, 8], lod := [[0, 1, 3]] }),
     ("H0", { dims := [2, 5], lod := [] }),
     ("Weight", { dims := [5, 8], lod := [] }),
     ("ProjWeight", { dims := [2, 5], lod := [] }),
     ("Bias", { dims := [1, 14], lod := [] })]
    blankOutputs
    [("use_peepholes", .bool true)]

/-- A backward call in which the gradients of `Input`, `Weight` and `H0` are
requested. -/
def ctxGrad : InferShapeContext :=
  mkContext
    [("Input", { dims := [3, 8], lod := [[0, 1, 3]] }),
     ("Projection", { dims := [3, 5], lod := [[0, 1, 3]] }),
     ("Cell", { dims := [3, 2], lod := [[0, 1, 3]] }),
     ("H0", { dims := [2, 5], lod := [] }),
     ("C0", { dims := [2, 2], lod := [] }),
     ("Weight", { dims := [5, 8], lod := [] }),
     ("ProjWeight", { dims := [2, 5], lod := [] }),
     ("Bias", { dims := [1, 14], lod := [] }),
     ("BatchGate", { dims := [3, 8], lod := [] }),
     ("BatchCellPreAct", { dims := [3, 2], lod := [] })]
    [("Input@GRAD", blank), ("Weight@GRAD", blank), ("H0@GRAD", blank), ("Other", blank)]
    [("use_peepholes", .bool true)]

/-- A forward call whose `ProjWeight` has rank 1; every required slot is
present and `Input`, `Weight`, `Bias` have rank 2. -/
def ctxRank1 : InferShapeContext :=
  mkContext
    [("Input", { dims := [3, 8], lod := [[0, 1, 3]] }),
     ("Weight", { dims := [5, 8], lod := [] }),
     ("ProjWeight", { dims := [2], lod := [] }),
     ("Bias", { dims := [1, 14], lod := [] })]
    blankOutputs
    [("use_peepholes", .bool true)]

/-- The same call with a `ProjWeight` of rank 0. -/
def ctxRank0 : InferShapeContext :=
  mkContext
    [("Input", { dims := [3, 8], lod := [[0, 1, 3]] }),
     ("Weight", { dims := [5, 8], lod := [] }),
     ("ProjWeight", { dims := [], lod := [] }),
     ("Bias", { dims := [1, 14], lod := [] })]
    blankOutputs
    [("use_peepholes", .bool true)]

/-- A forward call with an initial state whose `Bias` is `1 x 8` where
`1 x 14` is required: it fails after the `H0` block has run. -/
def ctxBadBias : InferShapeContext :=
  mkContext
    [("Input", { dims := [3, 8], lod := [[0, 1, 3]] }),
     ("H0", { dims := [2, 5], lod := [] }),
     ("C0", { dims := [2, 2], lod := [] }),
     ("Weight", { dims := [5, 8], lod := [] }),
     ("ProjWeight", { dims := [2, 5], lod := [] }),
     ("Bias", { dims := [1, 8], lod := [] })]
    blankOutputs
    [("use_peepholes", .bool true)]

/-- A forward call with `Input` of width `2^32`, so that `frame_size = 2^30`
and the `int` product `4 * frame_size` has low 32 bits `0`; peepholes off. -/
def ctxWide : InferShapeContext :=
  mkContext
    [("Input", { dims := [3, 4294967296], lod := [[0, 1, 3]] }),
     ("Weight", { dims := [5, 0], lod := [] }),
     ("ProjWeight", { dims := [1073741824, 5], lod := [] }),
     ("Bias", { dims := [1, 0], lod := [] })]
    blankOutputs
    [("use_peepholes", .bool false)]

theorem Exec.pure_run {α : Type} (a : α) (s : InferShapeContext) : (Pure.pure a : Exec α) s = (.ok a, s) := rfl

theorem Exec.bind_run {α β : Type} (x : Exec α) (f : α → Exec β) (s : InferShapeContext) :
    (x >>= f) s = match x s with
      | (.ok a, s1) => f a s1
      | (.error e, s1) => (.error e, s1) := rfl

theorem Exec.pure_bind {α β : Type} (a : α) (f : α → Exec β) : (Pure.pure a >>= f) = f a := rfl

theorem Exec.ite_bind_run {α β : Type} (c : Prop) [Decidable c] (x y : Exec α) (f : α → Exec β)
    (s : InferShapeContext) :
    ((if c then x else y) >>= f) s = if c then (x >>= f) s else (y >>= f) s := by
  split <;> rfl

theorem Exec.ite_run {α : Type} (c : Prop) [Decidable c] (x y : Exec α) (s : InferShapeContext) :
    (if c then x else y) s = if c then x s else y s := by
  split <;> rfl

theorem HasInput_bind {β : Type} (n : String) (f : Bool → Exec β) (s : InferShapeContext) :
    (HasInput n >>= f) s = f (s.inputs n).isSome s := rfl

theorem HasOutput_bind {β : Type} (n : String) (f : Bool → Exec β) (s : InferShapeContext) :
    (HasOutput n >>= f) s = f (s.outputs n).isSome s := rfl

theorem PADDLE_ENFORCE_run (c : Bool) (m : String) (s : InferShapeContext) :
    PADDLE_ENFORCE c m s = if c = true then (.ok (), s) else (.error (.EnforceNotMet m), s) := by
  cases c <;> rfl

theorem PADDLE_ENFORCE_bind {β : Type} (c : Bool) (m : String) (f : Unit → Exec β) (s : InferShapeContext) :
    (PADDLE_ENFORCE c m >>= f) s
      = if c = true then f () s else (.error (.EnforceNotMet m), s) := by
  cases c <;> rfl

theorem PADDLE_ENFORCE_EQ_run (a b : Int) (m : String) (s : InferShapeContext) :
    PADDLE_ENFORCE_EQ a b m s = if a = b then (.ok (), s) else (.error (.EnforceNotMet m), s) := by
  unfold PADDLE_ENFORCE_EQ
  split <;> rfl

theorem PADDLE_ENFORCE_EQ_bind {β : Type} (a b : Int) (m : String) (f : Unit → Exec β)
    (s : InferShapeContext) :
    (PADDLE_ENFORCE_EQ a b m >>= f) s
      = if a = b then f () s else (.error (.EnforceNotMet m), s) := by
  rw [Exec.bind_run, PADDLE_ENFORCE_EQ_run]
  by_cases h : a = b <;> simp [h]

theorem GetInputDim_bind {β : Type} (n : String) (f : DDim → Exec β) (s : InferShapeContext) :
    (GetInputDim n >>= f) s = match s.inputs n with
      | some v => f v.dims s
      | none => (.error (.EnforceNotMet "Input should hold one element"), s) := by
  rw [Exec.bind_run]
  unfold GetInputDim
  cases s.inputs n <;> rfl

theorem DDim.at_bind {β : Type} (d : DDim) (i : Nat) (f : Int → Exec β) (s : InferShapeContext) :
    (DDim.at d i >>= f) s = match d.get? i with
      | some v => f v s
      | none => (.error (.invalid_argument "Invalid index"), s) := by
  rw [Exec.bind_run]
  unfold DDim.at
  cases d.get? i <;> rfl

theorem Attrs_Get_bool_bind {β : Type} (n : String) (f : Bool → Exec β) (s : InferShapeContext) :
    (Attrs_Get_bool n >>= f) s = match s.attrs n with
      | some (.bool b) => f b s
      | _ => (.error (.EnforceNotMet "attribute should be in AttributeMap"), s) := by
  rw [Exec.bind_run]
  unfold Attrs_Get_bool
  cases h : s.attrs n with
  | none => rfl
  | some a => cases a <;> rfl

theorem SetOutputDim_run (n : String) (d : DDim) (s : InferShapeContext) :
    SetOutputDim n d s = if (s.outputs n).isSome = true then (.ok (), s.withDim n d)
      else (.error (.EnforceNotMet "Output should hold one element"), s) := by
  unfold SetOutputDim InferShapeContext.withDim
  cases h : s.outputs n <;> simp

theorem SetOutputDim_bind {β : Type} (n : String) (d : DDim) (f : Unit → Exec β) (s : InferShapeContext) :
    (SetOutputDim n d >>= f) s = if (s.outputs n).isSome = true then f () (s.withDim n d)
      else (.error (.EnforceNotMet "Output should hold one element"), s) := by
  rw [Exec.bind_run, SetOutputDim_run]
  by_cases h : (s.outputs n).isSome = true <;> simp [h]

theorem ShareLoD_run (i o : String) (s : InferShapeContext) :
    ShareLoD i o s = match s.inputs i with
      | some v => if (s.outputs o).isSome = true then (.ok (), s.withLoD o v.lod)
          else (.error (.EnforceNotMet "ShareLoD on an empty slot"), s)
      | none => (.error (.EnforceNotMet "ShareLoD on an empty slot"), s) := by
  unfold ShareLoD InferShapeContext.withLoD
  cases h1 : s.inputs i <;> cases h2 : s.outputs o <;> simp

theorem ShareLoD_bind {β : Type} (i o : String) (f : Unit → Exec β) (s : InferShapeContext) :
    (ShareLoD i o >>= f) s = match s.inputs i with
      | some v => if (s.outputs o).isSome = true then f () (s.withLoD o v.lod)
          else (.error (.EnforceNotMet "ShareLoD on an empty slot"), s)
      | none => (.error (.EnforceNotMet "ShareLoD on an empty slot"), s) := by
  rw [Exec.bind_run, ShareLoD_run]
  cases h1 : s.inputs i with
  | none => rfl
  | some v => by_cases h : (s.outputs o).isSome = true <;> simp [h]

theorem ite_error_eq_ok {β : Type} (c : Prop) [Decidable c] (x : Except Failure β × InferShapeContext)
    (e : Failure) (s t : InferShapeContext) (u : β) :
    (if c then x else (.error e, s)) = (.ok u, t) ↔ c ∧ x = (.ok u, t) := by
  by_cases h : c <;> simp [h]

theorem PADDLE_ENFORCE_bind_ok {β : Type} (c : Bool) (m : String) (f : Unit → Exec β)
    (s t : InferShapeContext) (u : β) :
    (PADDLE_ENFORCE c m >>= f) s = (.ok u, t) ↔ c = true ∧ f () s = (.ok u, t) := by
  rw [PADDLE_ENFORCE_bind, ite_error_eq_ok]

theorem PADDLE_ENFORCE_EQ_bind_ok {β : Type} (a b : Int) (m : String) (f : Unit → Exec β)
    (s t : InferShapeContext) (u : β) :
    (PADDLE_ENFORCE_EQ a b m >>= f) s = (.ok u, t) ↔ a = b ∧ f () s = (.ok u, t) := by
  rw [PADDLE_ENFORCE_EQ_bind, ite_error_eq_ok]

theorem PADDLE_ENFORCE_EQ_ok (a b : Int) (m : String) (s t : InferShapeContext) (u : Unit) :
    PADDLE_ENFORCE_EQ a b m s = (.ok u, t) ↔ a = b ∧ s = t := by
  rw [PADDLE_ENFORCE_EQ_run, ite_error_eq_ok]; simp

theorem GetInputDim_bind_ok {β : Type} (n : String) (f : DDim → Exec β) (s t : InferShapeContext) (u : β) :
    (GetInputDim n >>= f) s = (.ok u, t)
      ↔ ∃ v, s.inputs n = some v ∧ f v.dims s = (.ok u, t) := by
  rw [GetInputDim_bind]
  cases s.inputs n <;> simp

theorem DDim.at_bind_ok {β : Type} (d : DDim) (i : Nat) (f : Int → Exec β) (s t : InferShapeContext)
    (u : β) :
    (DDim.at d i >>= f) s = (.ok u, t) ↔ ∃ x, d.get? i = some x ∧ f x s = (.ok u, t) := by
  rw [DDim.at_bind]
  cases d.get? i <;> simp

theorem Attrs_Get_bool_bind_ok {β : Type} (n : String) (f : Bool → Exec β) (s t : InferShapeContext)
    (u : β) :
    (Attrs_Get_bool n >>= f) s = (.ok u, t)
      ↔ ∃ b, s.attrs n = some (.bool b) ∧ f b s = (.ok u, t) := by
  rw [Attrs_Get_bool_bind]
  cases h : s.attrs n with
  | none => simp
  | some a => cases a <;> simp

theorem SetOutputDim_bind_ok {β : Type} (n : String) (d : DDim) (f : Unit → Exec β)
    (s t : InferShapeContext) (u : β) :
    (SetOutputDim n d >>= f) s = (.ok u, t)
      ↔ (s.outputs n).isSome = true ∧ f () (s.withDim n d) = (.ok u, t) := by
  rw [SetOutputDim_bind, ite_error_eq_ok]

theorem SetOutputDim_ok (n : String) (d : DDim) (s t : InferShapeContext) (u : Unit) :
    SetOutputDim n d s = (.ok u, t) ↔ (s.outputs n).isSome = true ∧ s.withDim n d = t := by
  rw [SetOutputDim_run, ite_error_eq_ok]; simp

theorem ShareLoD_bind_ok {β : Type} (i o : String) (f : Unit → Exec β) (s t : InferShapeContext) (u : β) :
    (ShareLoD i o >>= f) s = (.ok u, t)
      ↔ ∃ v, s.inputs i = some v ∧ (s.outputs o).isSome = true
          ∧ f () (s.withLoD o v.lod) = (.ok u, t) := by
  rw [ShareLoD_bind]
  cases s.inputs i <;> simp [ite_error_eq_ok]

theorem ShareLoD_ok (i o : String) (s t : InferShapeContext) (u : Unit) :
    ShareLoD i o s = (.ok u, t)
      ↔ ∃ v, s.inputs i = some v ∧ (s.outputs o).isSome = true ∧ s.withLoD o v.lod = t := by
  rw [ShareLoD_run]
  cases s.inputs i <;> simp [ite_error_eq_ok]

theorem DDim.size_eq_two (d : DDim) : d.size = 2 ↔ ∃ a b, d = [a, b] := by
  unfold DDim.size
  constructor
  · intro h
    match d, h with
    | [a, b], _ => exact ⟨a, b, rfl⟩
    | [], h => simp at h
    | [_], h => simp at h
    | _ :: _ :: _ :: l, h => simp at h; omega
  · rintro ⟨a, b, rfl⟩; rfl

/-! ## What a returning forward call has checked and written -/

theorem withDim_inputs (s : InferShapeContext) (n : String) (d : DDim) :
    (s.withDim n d).inputs = s.inputs := rfl

theorem withDim_attrs (s : InferShapeContext) (n : String) (d : DDim) :
    (s.withDim n d).attrs = s.attrs := rfl

theorem withLoD_inputs (s : InferShapeContext) (n : String) (l : LoD) :
    (s.withLoD n l).inputs = s.inputs := rfl

theorem withDim_outputs (s : InferShapeContext) (n m : String) (d : DDim) :
    (s.withDim n d).outputs m
      = if m = n then (s.outputs n).map (fun v => { v with dims := d }) else s.outputs m := rfl

theorem withLoD_outputs (s : InferShapeContext) (n m : String) (l : LoD) :
    (s.withLoD n l).outputs m
      = if m = n then (s.outputs n).map (fun v => { v with lod := l }) else s.outputs m := rfl

theorem withDim_isSome (s : InferShapeContext) (n m : String) (d : DDim) :
    ((s.withDim n d).outputs m).isSome = (s.outputs m).isSome := by
  rw [withDim_outputs]
  by_cases h : m = n
  · subst h; simp
  · simp [h]

theorem withLoD_isSome (s : InferShapeContext) (n m : String) (l : LoD) :
    ((s.withLoD n l).outputs m).isSome = (s.outputs m).isSome := by
  rw [withLoD_outputs]
  by_cases h : m = n
  · subst h; simp
  · simp [h]

theorem afterH0_inputs (s : InferShapeContext) (P : Int) : (afterH0 s P).inputs = s.inputs := by
  unfold afterH0
  cases s.inputs "H0" <;> rfl

theorem afterH0_attrs (s : InferShapeContext) (P : Int) : (afterH0 s P).attrs = s.attrs := by
  unfold afterH0
  cases s.inputs "H0" <;> rfl

theorem afterH0_isSome (s : InferShapeContext) (P : Int) (m : String) :
    ((afterH0 s P).outputs m).isSome = (s.outputs m).isSome := by
  unfold afterH0
  cases s.inputs "H0" with
  | none => rfl
  | some h => exact withDim_isSome s _ m _

/-- A forward call that returns has passed `ForwardChecks` and returns with
`forwardResult`. -/
theorem forward_elim (s t : InferShapeContext) (h : LSTMPOp.InferShape s = (.ok (), t)) :
    ∃ inp w pw b T c P D pe, ForwardChecks s inp w pw b T c P D pe
      ∧ t = forwardResult s inp T P D := by
  unfold LSTMPOp.InferShape at h
  simp only [HasInput_bind, HasOutput_bind, PADDLE_ENFORCE_bind_ok, PADDLE_ENFORCE_EQ_bind_ok,
    GetInputDim_bind_ok, DDim.at_bind_ok, Exec.ite_run] at h
  obtain ⟨hI, hW, hPW, hB, oP, oC, oBG, oBC, oBH, inp, hinp, hsz, c, hc, w, hw, pw, hpw, hwsz,
    P, hP, P2, hP2, rfl, w1, hw1, rfl, hpsz, D, hD, hDe, h⟩ := h
  obtain ⟨T, c1, hin⟩ := (DDim.size_eq_two _).1 hsz
  obtain ⟨w0, w1, hwd⟩ := (DDim.size_eq_two _).1 hwsz
  obtain ⟨p0, p1, hpd⟩ := (DDim.size_eq_two _).1 hpsz
  rw [hin] at hc; rw [hwd] at hP hw1; rw [hpd] at hP2 hD
  simp only [List.get?_cons_zero, List.get?_cons_succ, Option.some.injEq] at hc hP hw1 hP2 hD
  subst hc hP hP2
  rw [hpd, hin] at h
  rw [← hDe] at hw1 h
  subst hw1 hD
  cases hH0 : s.inputs "H0" with
  | none =>
    simp only [hH0, Option.isSome_none, Bool.false_eq_true, if_false, Exec.pure_bind,
      PADDLE_ENFORCE_EQ_bind_ok, GetInputDim_bind_ok, DDim.at_bind_ok,
      Attrs_Get_bool_bind_ok] at h
    obtain ⟨b, hb, hbsz, b0, hb0, rfl, pe, hpe, h⟩ := h
    obtain ⟨b0, b1, hbd⟩ := (DDim.size_eq_two _).1 hbsz
    refine ⟨inp, w, pw, b, T, c1, p1, p0, pe, ?_⟩
    cases pe <;>
    simp only [hinp, hbd, if_true, Bool.false_eq_true, if_false, Exec.pure_bind,
        PADDLE_ENFORCE_EQ_bind_ok, DDim.at_bind_ok,
        SetOutputDim_bind_ok, ShareLoD_bind_ok, ShareLoD_ok,
        withDim_inputs, withLoD_inputs, withDim_isSome, withLoD_isSome,
        List.get?_cons_zero, List.get?_cons_succ, Option.some.injEq, exists_eq_left'] at h hb0 <;>
    obtain ⟨rfl, -, -, -, -, -, -, -, rfl⟩ := h <;>
    subst hb0 <;>
    exact ⟨⟨hinp, hw, hpw, hb, oP, oC, oBG, oBC, oBH, hin, hDe, hwd, hpd,
      (fun h0 e => by rw [hH0] at e; cases e), hpe, (by simp [hbd])⟩,
      (by rw [forwardResult, afterH0]; simp only [hH0, hin])⟩
  | some h0 =>
    simp only [hH0, Option.isSome_some, if_true, Exec.pure_bind, PADDLE_ENFORCE_bind_ok,
      PADDLE_ENFORCE_EQ_bind_ok, GetInputDim_bind_ok, DDim.at_bind_ok,
      Attrs_Get_bool_bind_ok, SetOutputDim_bind_ok, withDim_inputs, withDim_attrs,
      List.get?_cons_zero, List.get?_cons_succ, Option.some.injEq, exists_eq_left'] at h
    obtain ⟨hC0, c0, hc0, N, hN, oO, b, hb, hbsz, b0, hb0, rfl, pe, hpe, h⟩ := h
    obtain ⟨b0, b1, hbd⟩ := (DDim.size_eq_two _).1 hbsz
    have hhead : h0.dims.headD 0 = N := by
      cases hd : h0.dims with
      | nil => rw [hd] at hN; simp at hN
      | cons a l => rw [hd] at hN; simpa using hN
    refine ⟨inp, w, pw, b, T, c1, p1, p0, pe, ?_⟩
    cases pe <;>
    simp only [hinp, hbd, if_true, Bool.false_eq_true, if_false, Exec.pure_bind,
        PADDLE_ENFORCE_EQ_bind_ok, DDim.at_bind_ok,
        SetOutputDim_bind_ok, ShareLoD_bind_ok, ShareLoD_ok,
        withDim_inputs, withLoD_inputs, withDim_isSome, withLoD_isSome,
        List.get?_cons_zero, List.get?_cons_succ, Option.some.injEq, exists_eq_left'] at h hb0 <;>
    obtain ⟨rfl, -, -, -, -, -, -, -, rfl⟩ := h <;>
    subst hb0 <;>
    exact ⟨⟨hinp, hw, hpw, hb, oP, oC, oBG, oBC, oBH, hin, hDe, hwd, hpd,
      (fun h1 e => by
        rw [hH0] at e; cases e
        exact ⟨hC0, ⟨N, hN⟩, oO⟩), hpe, (by simp [hbd])⟩,
      (by rw [forwardResult, afterH0]; simp only [hH0, hin, hhead])⟩

/-- Completeness: a context that passes `ForwardChecks` makes the forward call
return, with `forwardResult`. -/
theorem forward_intro (s : InferShapeContext) (inp w pw b : Variable) (T c P D : Int) (pe : Bool)
    (hc : ForwardChecks s inp w pw b T c P D pe) :
    LSTMPOp.InferShape s = (.ok (), forwardResult s inp T P D) := by
  obtain ⟨hinp, hw, hpw, hb, oP, oC, oBG, oBC, oBH, hin, hDe, hwd, hpd, hh0, hpe, hbd⟩ := hc
  subst hDe
  unfold LSTMPOp.InferShape
  rw [forwardResult, afterH0]
  cases hH0 : s.inputs "H0" with
  | none =>
    cases pe <;>
    simp only [HasInput_bind, HasOutput_bind, PADDLE_ENFORCE_bind, PADDLE_ENFORCE_EQ_bind,
      PADDLE_ENFORCE_EQ_run, Exec.pure_bind, GetInputDim_bind, DDim.at_bind,
      Attrs_Get_bool_bind, SetOutputDim_bind, ShareLoD_bind, ShareLoD_run, Exec.ite_run,
      DDim.size, withDim_inputs, withLoD_inputs, withDim_attrs, withDim_isSome, withLoD_isSome,
      if_true, if_false, List.length_cons, List.length_nil, List.get?_cons_zero,
      List.get?_cons_succ, Nat.cast_ofNat, Option.isSome_none, Option.isSome_some,
      Bool.false_eq_true, Nat.zero_add, Nat.reduceAdd, true_implies,
      oP, oC, oBG, oBC, oBH, hinp, hw, hpw, hb, hin, hwd, hpd, hbd, hpe, hH0]
  | some h0 =>
    obtain ⟨hC0, ⟨N, hN⟩, oO⟩ := hh0 h0 hH0
    obtain ⟨c0, hc0⟩ := Option.isSome_iff_exists.1 hC0
    have hhead : h0.dims.headD 0 = N := by
      cases hd : h0.dims with
      | nil => rw [hd] at hN; simp at hN
      | cons a l => rw [hd] at hN; simpa using hN
    cases pe <;>
    simp only [HasInput_bind, HasOutput_bind, PADDLE_ENFORCE_bind, PADDLE_ENFORCE_EQ_bind,
      PADDLE_ENFORCE_EQ_run, Exec.pure_bind, GetInputDim_bind, DDim.at_bind,
      Attrs_Get_bool_bind, SetOutputDim_bind, ShareLoD_bind, ShareLoD_run, Exec.ite_run,
      DDim.size, withDim_inputs, withLoD_inputs, withDim_attrs, withDim_isSome, withLoD_isSome,
      if_true, if_false, List.length_cons, List.length_nil, List.get?_cons_zero,
      List.get?_cons_succ, Nat.cast_ofNat, Option.isSome_none, Option.isSome_some,
      Bool.false_eq_true, Nat.zero_add, Nat.reduceAdd, true_implies,
      oP, oC, oBG, oBC, oBH, oO, hinp, hw, hpw, hb, hin, hwd, hpd, hbd, hpe, hH0, hc0, hN,
      hhead]

/-! ## What a returning backward call has checked and written -/

theorem gradStep_inputs (s : InferShapeContext) (n : String) : (gradStep s n).inputs = s.inputs := by
  unfold gradStep
  cases s.outputs (GradVarName n) <;> cases s.inputs n <;> rfl

theorem gradStep_outputs (s : InferShapeContext) (n m : String) :
    (gradStep s n).outputs m =
      if m = GradVarName n then
        match s.inputs n with
        | some v => (s.outputs m).map (fun o => { o with dims := v.dims })
        | none => s.outputs m
      else s.outputs m := by
  unfold gradStep
  by_cases hm : m = GradVarName n
  · subst hm
    cases ho : s.outputs (GradVarName n) <;> cases hi : s.inputs n <;>
      simp [withDim_outputs, ho]
  · cases ho : s.outputs (GradVarName n) <;> cases hi : s.inputs n <;>
      simp [withDim_outputs, hm]

theorem SetOutGradDim_run (n : String) (s : InferShapeContext) :
    SetOutGradDim n s =
      if (s.outputs (GradVarName n)).isSome = true ∧ (s.inputs n).isSome = false then
        (.error (.EnforceNotMet "Input should hold one element"), s)
      else (.ok (), gradStep s n) := by
  unfold SetOutGradDim gradStep
  simp only [HasOutput_bind, Exec.ite_run, GetInputDim_bind, SetOutputDim_run]
  cases ho : s.outputs (GradVarName n) <;> cases hi : s.inputs n <;>
    simp [Exec.pure_run, ho]

theorem SetOutGradDim_bind_ok {β : Type} (n : String) (f : Unit → Exec β)
    (s t : InferShapeContext) (u : β) :
    (SetOutGradDim n >>= f) s = (.ok u, t)
      ↔ ((s.outputs (GradVarName n)).isSome = true → (s.inputs n).isSome = true)
        ∧ f () (gradStep s n) = (.ok u, t) := by
  rw [Exec.bind_run, SetOutGradDim_run]
  cases ho : (s.outputs (GradVarName n)).isSome <;> cases hi : (s.inputs n).isSome <;> simp

theorem SetOutGradDim_ok (n : String) (s t : InferShapeContext) (u : Unit) :
    SetOutGradDim n s = (.ok u, t)
      ↔ ((s.outputs (GradVarName n)).isSome = true → (s.inputs n).isSome = true)
        ∧ gradStep s n = t := by
  rw [SetOutGradDim_run]
  cases ho : (s.outputs (GradVarName n)).isSome <;> cases hi : (s.inputs n).isSome <;> simp

theorem gradStep_isSome (s : InferShapeContext) (n m : String) :
    ((gradStep s n).outputs m).isSome = (s.outputs m).isSome := by
  rw [gradStep_outputs]
  by_cases hm : m = GradVarName n
  · cases hi : s.inputs n <;> simp [hm]
  · simp [hm]

/-- A backward call that returns had every required input, had input `X` for
every requested gradient slot, and returns with `backwardResult`. -/
theorem backward_elim (s t : InferShapeContext) (h : LSTMPGradOp.InferShape s = (.ok (), t)) :
    (∀ n ∈ backwardRequired, (s.inputs n).isSome = true)
      ∧ (∀ n ∈ gradNames, (s.outputs (GradVarName n)).isSome = true → (s.inputs n).isSome = true)
      ∧ t = backwardResult s := by
  unfold LSTMPGradOp.InferShape at h
  simp only [HasInput_bind, PADDLE_ENFORCE_bind_ok, SetOutGradDim_bind_ok, SetOutGradDim_ok,
    gradStep_inputs, gradStep_isSome] at h
  obtain ⟨h1, h2, h3, h4, h5, h6, h7, h8, g1, g2, g3, g4, g5, g6, rfl⟩ := h
  refine ⟨?_, ?_, rfl⟩
  · intro n hn
    simp only [backwardRequired, List.mem_cons, List.mem_singleton, List.mem_nil_iff, or_false] at hn
    rcases hn with rfl | rfl | rfl | rfl | rfl | rfl | rfl | rfl <;> assumption
  · intro n hn
    simp only [gradNames, List.mem_cons, List.mem_singleton, List.mem_nil_iff, or_false] at hn
    rcases hn with rfl | rfl | rfl | rfl | rfl | rfl <;> assumption

/-! ## Outputs of the returned contexts -/

theorem Exec.eq_of_fst_ok (x : Exec Unit) (s : InferShapeContext) (h : (x s).1 = .ok ()) :
    x s = (.ok (), (x s).2) := Prod.ext h rfl

theorem afterH0_outputs_of_ne (s : InferShapeContext) (P : Int) (m : String)
    (hm : m ≠ "OrderedP0") : (afterH0 s P).outputs m = s.outputs m := by
  unfold afterH0
  cases s.inputs "H0" with
  | none => rfl
  | some h => rw [withDim_outputs, if_neg hm]

theorem forwardResult_Projection (s : InferShapeContext) (inp : Variable) (T P D : Int) :
    (forwardResult s inp T P D).outputs "Projection"
      = (s.outputs "Projection").map (fun _ => { dims := [T, P], lod := inp.lod }) := by
  have e := afterH0_outputs_of_ne s P "Projection" (by decide)
  cases h : s.outputs "Projection" <;>
    simp [forwardResult, withDim_outputs, withLoD_outputs, e, h]

theorem forwardResult_Cell (s : InferShapeContext) (inp : Variable) (T P D : Int) :
    (forwardResult s inp T P D).outputs "Cell"
      = (s.outputs "Cell").map (fun _ => { dims := [T, D], lod := inp.lod }) := by
  have e := afterH0_outputs_of_ne s P "Cell" (by decide)
  cases h : s.outputs "Cell" <;>
    simp [forwardResult, withDim_outputs, withLoD_outputs, e, h]

theorem forwardResult_BatchGate (s : InferShapeContext) (inp : Variable) (T P D : Int) :
    (forwardResult s inp T P D).outputs "BatchGate"
      = (s.outputs "BatchGate").map (fun v => { v with dims := inp.dims }) := by
  have e := afterH0_outputs_of_ne s P "BatchGate" (by decide)
  cases h : s.outputs "BatchGate" <;>
    simp [forwardResult, withDim_outputs, withLoD_outputs, e, h]

theorem forwardResult_BatchCellPreAct (s : InferShapeContext) (inp : Variable) (T P D : Int) :
    (forwardResult s inp T P D).outputs "BatchCellPreAct"
      = (s.outputs "BatchCellPreAct").map (fun v => { v with dims := [T, D] }) := by
  have e := afterH0_outputs_of_ne s P "BatchCellPreAct" (by decide)
  cases h : s.outputs "BatchCellPreAct" <;>
    simp [forwardResult, withDim_outputs, withLoD_outputs, e, h]

theorem forwardResult_BatchHidden (s : InferShapeContext) (inp : Variable) (T P D : Int) :
    (forwardResult s inp T P D).outputs "BatchHidden"
      = (s.outputs "BatchHidden").map (fun v => { v with dims := [T, D] }) := by
  have e := afterH0_outputs_of_ne s P "BatchHidden" (by decide)
  cases h : s.outputs "BatchHidden" <;>
    simp [forwardResult, withDim_outputs, withLoD_outputs, e, h]

theorem forwardResult_OrderedP0 (s : InferShapeContext) (inp : Variable) (T P D : Int) :
    (forwardResult s inp T P D).outputs "OrderedP0" = (afterH0 s P).outputs "OrderedP0" := by
  simp [forwardResult, withDim_outputs, withLoD_outputs]

theorem withDim_lod (s : InferShapeContext) (n m : String) (d : DDim) :
    ((s.withDim n d).outputs m).map Variable.lod = (s.outputs m).map Variable.lod := by
  rw [withDim_outputs]
  by_cases hm : m = n
  · subst hm; cases s.outputs m <;> simp
  · simp [hm]

theorem afterH0_lod (s : InferShapeContext) (P : Int) (m : String) :
    ((afterH0 s P).outputs m).map Variable.lod = (s.outputs m).map Variable.lod := by
  unfold afterH0
  cases s.inputs "H0" with
  | none => rfl
  | some h => exact withDim_lod s _ m _

theorem forwardResult_lod_of_ne (s : InferShapeContext) (inp : Variable) (T P D : Int)
    (m : String) (h1 : m ≠ "Projection") (h2 : m ≠ "Cell") :
    ((forwardResult s inp T P D).outputs m).map Variable.lod
      = (s.outputs m).map Variable.lod := by
  unfold forwardResult
  rw [withLoD_outputs, if_neg h2, withLoD_outputs, if_neg h1, withDim_lod, withDim_lod,
    withDim_lod, withDim_lod, withDim_lod, afterH0_lod]

theorem forwardResult_inputs (s : InferShapeContext) (inp : Variable) (T P D : Int) :
    (forwardResult s inp T P D).inputs = s.inputs := by
  unfold forwardResult
  simp only [withLoD_inputs, withDim_inputs, afterH0_inputs]

/-! ## Rejected calls and the gradient slots -/

theorem DDim.size_pair (a b : Int) : DDim.size [a, b] = 2 := rfl

theorem setInput_inputs_self (s : InferShapeContext) (n : String) (v : Option Variable) :
    (s.setInput n v).inputs n = v := by
  simp [InferShapeContext.setInput]

theorem setInput_inputs_of_ne (s : InferShapeContext) (n m : String) (v : Option Variable)
    (h : m ≠ n) : (s.setInput n v).inputs m = s.inputs m := by
  simp [InferShapeContext.setInput, h]

/-- The slot checks at the head of `LSTMPOp::InferShape` (lines 26-45): when
one of the nine required slots is empty the call fails with `EnforceNotMet`
and leaves the context as it was. -/
theorem forward_missing_slot (s : InferShapeContext)
    (h : ¬ ((s.inputs "Input").isSome = true ∧ (s.inputs "Weight").isSome = true
      ∧ (s.inputs "ProjWeight").isSome = true ∧ (s.inputs "Bias").isSome = true
      ∧ (s.outputs "Projection").isSome = true ∧ (s.outputs "Cell").isSome = true
      ∧ (s.outputs "BatchGate").isSome = true ∧ (s.outputs "BatchCellPreAct").isSome = true
      ∧ (s.outputs "BatchHidden").isSome = true)) :
    ∃ msg, LSTMPOp.InferShape s = (.error (.EnforceNotMet msg), s) := by
  unfold LSTMPOp.InferShape
  simp only [HasInput_bind, HasOutput_bind, PADDLE_ENFORCE_bind]
  by_cases h1 : (s.inputs "Input").isSome = true
  case neg => exact ⟨_, if_neg h1⟩
  rw [if_pos h1]
  by_cases h2 : (s.inputs "Weight").isSome = true
  case neg => exact ⟨_, if_neg h2⟩
  rw [if_pos h2]
  by_cases h3 : (s.inputs "ProjWeight").isSome = true
  case neg => exact ⟨_, if_neg h3⟩
  rw [if_pos h3]
  by_cases h4 : (s.inputs "Bias").isSome = true
  case neg => exact ⟨_, if_neg h4⟩
  rw [if_pos h4]
  by_cases h5 : (s.outputs "Projection").isSome = true
  case neg => exact ⟨_, if_neg h5⟩
  rw [if_pos h5]
  by_cases h6 : (s.outputs "Cell").isSome = true
  case neg => exact ⟨_, if_neg h6⟩
  rw [if_pos h6]
  by_cases h7 : (s.outputs "BatchGate").isSome = true
  case neg => exact ⟨_, if_neg h7⟩
  rw [if_pos h7]
  by_cases h8 : (s.outputs "BatchCellPreAct").isSome = true
  case neg => exact ⟨_, if_neg h8⟩
  rw [if_pos h8]
  by_cases h9 : (s.outputs "BatchHidden").isSome = true
  case neg => exact ⟨_, if_neg h9⟩
  exact absurd ⟨h1, h2, h3, h4, h5, h6, h7, h8, h9⟩ h

/-- The slot checks at the head of `LSTMPGradOp::InferShape` (lines 275-291):
when one of the eight required inputs is empty the call fails with
`EnforceNotMet` and leaves the context as it was. -/
theorem backward_missing_slot (s : InferShapeContext)
    (h : ¬ ((s.inputs "Input").isSome = true ∧ (s.inputs "Projection").isSome = true
      ∧ (s.inputs "Cell").isSome = true ∧ (s.inputs "Weight").isSome = true
      ∧ (s.inputs "ProjWeight").isSome = true ∧ (s.inputs "Bias").isSome = true
      ∧ (s.inputs "BatchGate").isSome = true ∧ (s.inputs "BatchCellPreAct").isSome = true)) :
    ∃ msg, LSTMPGradOp.InferShape s = (.error (.EnforceNotMet msg), s) := by
  unfold LSTMPGradOp.InferShape
  simp only [HasInput_bind, PADDLE_ENFORCE_bind]
  by_cases h1 : (s.inputs "Input").isSome = true
  case neg => exact ⟨_, if_neg h1⟩
  rw [if_pos h1]
  by_cases h2 : (s.inputs "Projection").isSome = true
  case neg => exact ⟨_, if_neg h2⟩
  rw [if_pos h2]
  by_cases h3 : (s.inputs "Cell").isSome = true
  case neg => exact ⟨_, if_neg h3⟩
  rw [if_pos h3]
  by_cases h4 : (s.inputs "Weight").isSome = true
  case neg => exact ⟨_, if_neg h4⟩
  rw [if_pos h4]
  by_cases h5 : (s.inputs "ProjWeight").isSome = true
  case neg => exact ⟨_, if_neg h5⟩
  rw [if_pos h5]
  by_cases h6 : (s.inputs "Bias").isSome = true
  case neg => exact ⟨_, if_neg h6⟩
  rw [if_pos h6]
  by_cases h7 : (s.inputs "BatchGate").isSome = true
  case neg => exact ⟨_, if_neg h7⟩
  rw [if_pos h7]
  by_cases h8 : (s.inputs "BatchCellPreAct").isSome = true
  case neg => exact ⟨_, if_neg h8⟩
  exact absurd ⟨h1, h2, h3, h4, h5, h6, h7, h8⟩ h

theorem gradStep_outputs_of_ne (s : InferShapeContext) (n m : String)
    (h : m ≠ GradVarName n) : (gradStep s n).outputs m = s.outputs m := by
  rw [gradStep_outputs, if_neg h]

theorem gradStep_outputs_self (s : InferShapeContext) (n : String) (v : Variable)
    (h : s.inputs n = some v) :
    (gradStep s n).outputs (GradVarName n)
      = (s.outputs (GradVarName n)).map (fun o => { o with dims := v.dims }) := by
  rw [gradStep_outputs, if_pos rfl, h]

theorem GradVarName_ne (a b : String) (h : a ≠ b) : GradVarName a ≠ GradVarName b := by
  intro e
  apply h
  have e1 := congrArg String.data e
  simp only [GradVarName, String.data_append, List.append_left_inj] at e1
  exact String.ext e1

theorem GradVarName_inj (a b : String) : GradVarName a = GradVarName b ↔ a = b := by
  constructor
  · intro e
    by_contra h
    exact GradVarName_ne a b h e
  · intro e; rw [e]

/-- The gradient slot of `X` in `backwardResult`. -/
theorem backwardResult_grad (s : InferShapeContext) (X : String) (hX : X ∈ gradNames) :
    (backwardResult s).outputs (GradVarName X)
      = match s.inputs X with
        | some v => (s.outputs (GradVarName X)).map (fun o => { o with dims := v.dims })
        | none => s.outputs (GradVarName X) := by
  simp only [gradNames, List.mem_cons, List.mem_singleton, List.mem_nil_iff, or_false] at hX
  rcases hX with rfl | rfl | rfl | rfl | rfl | rfl <;>
    simp [backwardResult, gradStep_outputs, gradStep_inputs, GradVarName_inj]

/-- Slots other than the six gradient slots are the same in `backwardResult`. -/
theorem backwardResult_frame (s : InferShapeContext) (m : String)
    (hm : ∀ X ∈ gradNames, m ≠ GradVarName X) :
    (backwardResult s).outputs m = s.outputs m := by
  unfold backwardResult
  rw [gradStep_outputs_of_ne _ _ _ (hm "C0" (by simp [gradNames])),
    gradStep_outputs_of_ne _ _ _ (hm "H0" (by simp [gradNames])),
    gradStep_outputs_of_ne _ _ _ (hm "Bias" (by simp [gradNames])),
    gradStep_outputs_of_ne _ _ _ (hm "ProjWeight" (by simp [gradNames])),
    gradStep_outputs_of_ne _ _ _ (hm "Weight" (by simp [gradNames])),
    gradStep_outputs_of_ne _ _ _ (hm "Input" (by simp [gradNames]))]

theorem backwardResult_inputs (s : InferShapeContext) : (backwardResult s).inputs = s.inputs := by
  simp only [backwardResult, gradStep_inputs]

/-! ## Failing forward calls -/

set_option maxHeartbeats 2000000 in
/-- A forward call that fails exits with the context it was entered with, or
that context after the one write of the `H0` block (line 78), which is only
reached when both `H0` and `C0` are present. -/
theorem forward_error_exit (s t : InferShapeContext) (e : Failure)
    (h : LSTMPOp.InferShape s = (.error e, t)) :
    t = s ∨ ∃ d, t = s.withDim "OrderedP0" d ∧ (s.inputs "H0").isSome = true
      ∧ (s.inputs "C0").isSome = true := by
  by_cases hslots : (s.inputs "Input").isSome = true ∧ (s.inputs "Weight").isSome = true
      ∧ (s.inputs "ProjWeight").isSome = true ∧ (s.inputs "Bias").isSome = true
      ∧ (s.outputs "Projection").isSome = true ∧ (s.outputs "Cell").isSome = true
      ∧ (s.outputs "BatchGate").isSome = true ∧ (s.outputs "BatchCellPreAct").isSome = true
      ∧ (s.outputs "BatchHidden").isSome = true
  case neg =>
    obtain ⟨msg, hm⟩ := forward_missing_slot s hslots
    rw [hm] at h
    cases h
    exact Or.inl rfl
  obtain ⟨hI, hW, hPW, hB, oP, oC, oBG, oBC, oBH⟩ := hslots
  obtain ⟨inp, hinp⟩ := Option.isSome_iff_exists.1 hI
  obtain ⟨w, hw⟩ := Option.isSome_iff_exists.1 hW
  obtain ⟨pw, hpw⟩ := Option.isSome_iff_exists.1 hPW
  obtain ⟨b, hb⟩ := Option.isSome_iff_exists.1 hB
  unfold LSTMPOp.InferShape at h
  simp only [HasInput_bind, HasOutput_bind, PADDLE_ENFORCE_bind, PADDLE_ENFORCE_EQ_bind,
    PADDLE_ENFORCE_EQ_run, Exec.pure_bind, GetInputDim_bind, DDim.at_bind,
    Attrs_Get_bool_bind, SetOutputDim_bind, ShareLoD_bind, ShareLoD_run, Exec.ite_run,
    withDim_inputs, withLoD_inputs, withDim_attrs, withDim_isSome, withLoD_isSome,
    hinp, hw, hpw, hb, oP, oC, oBG, oBC, oBH, Option.isSome_some, if_true] at h
  by_cases c1 : inp.dims.size = 2
  case neg => simp only [c1, if_false] at h; cases h; exact Or.inl rfl
  obtain ⟨T, c, hin⟩ := (DDim.size_eq_two _).1 c1
  simp only [hin, DDim.size_pair, if_true, List.get?_cons_zero, List.get?_cons_succ] at h
  by_cases c2 : w.dims.size = 2
  case neg => simp only [c2, if_false] at h; cases h; exact Or.inl rfl
  obtain ⟨w0, w1, hwd⟩ := (DDim.size_eq_two _).1 c2
  simp only [hwd, DDim.size_pair, if_true, List.get?_cons_zero, List.get?_cons_succ] at h
  rcases hp1 : List.get? pw.dims 1 with _ | p1
  · simp only [hp1] at h; cases h; exact Or.inl rfl
  simp only [hp1] at h
  by_cases c3 : w0 = p1
  case neg => simp only [c3, if_false] at h; cases h; exact Or.inl rfl
  simp only [c3, if_true] at h
  by_cases c5 : w1 = int_mul 4 (int64_to_int (Int.tdiv c 4))
  case neg => simp only [c5, if_false] at h; cases h; exact Or.inl rfl
  simp only [c5, if_true] at h
  by_cases c6 : pw.dims.size = 2
  case neg => simp only [c6, if_false] at h; cases h; exact Or.inl rfl
  obtain ⟨q0, q1, hpd⟩ := (DDim.size_eq_two _).1 c6
  simp only [hpd, DDim.size_pair, if_true, List.get?_cons_zero, List.get?_cons_succ] at h
  by_cases c7 : q0 = int64_to_int (Int.tdiv c 4)
  case neg => simp only [c7, if_false] at h; cases h; exact Or.inl rfl
  simp only [c7, if_true] at h
  by_cases hH : (s.inputs "H0").isSome = true
  · simp only [hH, if_true] at h
    by_cases hC : (s.inputs "C0").isSome = true
    case neg =>
      simp only [hC, Bool.false_eq_true, if_false] at h; cases h; exact Or.inl rfl
    simp only [hC, if_true] at h
    repeat' split at h
    all_goals first
      | (cases h; exact Or.inl rfl)
      | (cases h; exact Or.inr ⟨_, rfl, hH, hC⟩)
      | cases h
  · simp only [hH, Bool.false_eq_true, if_false] at h
    repeat' split at h
    all_goals first
      | (cases h; exact Or.inl rfl)
      | cases h

/-- With every required slot present and `Input`, `Weight` of rank 2, a
`ProjWeight` of rank 0 or 1 makes the forward call read `proj_dims[1]` (line 56)
out of range: the call ends in `std::invalid_argument`, before the rank check of
line 65 is reached. -/
theorem forward_low_rank_projweight (s : InferShapeContext) (inp w pw : Variable)
    (hinp : s.inputs "Input" = some inp) (hw : s.inputs "Weight" = some w)
    (hpw : s.inputs "ProjWeight" = some pw) (hB : (s.inputs "Bias").isSome = true)
    (oP : (s.outputs "Projection").isSome = true) (oC : (s.outputs "Cell").isSome = true)
    (oBG : (s.outputs "BatchGate").isSome = true)
    (oBC : (s.outputs "BatchCellPreAct").isSome = true)
    (oBH : (s.outputs "BatchHidden").isSome = true)
    (hi : inp.dims.size = 2) (hwr : w.dims.size = 2) (hr : pw.dims.length < 2) :
    LSTMPOp.InferShape s = (.error (.invalid_argument "Invalid index"), s) := by
  obtain ⟨b, hb⟩ := Option.isSome_iff_exists.1 hB
  obtain ⟨T, c, hin⟩ := (DDim.size_eq_two _).1 hi
  obtain ⟨w0, w1, hwd⟩ := (DDim.size_eq_two _).1 hwr
  have hp1 : List.get? pw.dims 1 = none := by
    rw [List.get?_eq_none]
    omega
  unfold LSTMPOp.InferShape
  simp only [HasInput_bind, HasOutput_bind, PADDLE_ENFORCE_bind, PADDLE_ENFORCE_EQ_bind,
    PADDLE_ENFORCE_EQ_run, Exec.pure_bind, GetInputDim_bind, DDim.at_bind,
    Attrs_Get_bool_bind, SetOutputDim_bind, ShareLoD_bind, ShareLoD_run, Exec.ite_run,
    withDim_inputs, withLoD_inputs, withDim_attrs, withDim_isSome, withLoD_isSome,
    hinp, hw, hpw, hb, oP, oC, oBG, oBC, oBH, Option.isSome_some, if_true,
    hin, hwd, DDim.size_pair, List.get?_cons_zero, List.get?_cons_succ, hp1]

/-- Two contexts with the same outputs and the same `H0` give forward results
whose outputs are the same. -/
theorem forwardResult_outputs_congr (s1 s2 : InferShapeContext) (inp : Variable) (T P D : Int)
    (ho : s1.outputs = s2.outputs) (hh : s1.inputs "H0" = s2.inputs "H0") :
    (forwardResult s1 inp T P D).outputs = (forwardResult s2 inp T P D).outputs := by
  have e : (afterH0 s1 P).outputs = (afterH0 s2 P).outputs := by
    unfold afterH0
    rw [hh]
    cases s2.inputs "H0" with
    | none => exact ho
    | some h0 =>
      funext n
      rw [withDim_outputs, withDim_outputs, ho]
  funext n
  simp only [forwardResult, withDim_outputs, withLoD_outputs, e]

/-- Rebinding `C0` to another variable keeps a returning forward call returning
and leaves the outputs it records the same. -/
theorem forward_rebind_c0 (s : InferShapeContext) (c1 c2 : Variable) (t1 : InferShapeContext)
    (h : LSTMPOp.InferShape (s.setInput "C0" (some c1)) = (.ok (), t1)) :
    ∃ t2, LSTMPOp.InferShape (s.setInput "C0" (some c2)) = (.ok (), t2)
      ∧ t2.outputs = t1.outputs := by
  obtain ⟨inp, w, pw, b, T, c, P, D, pe, hc, ht⟩ := forward_elim _ _ h
  have n1 := fun v => setInput_inputs_of_ne s "C0" "Input" v (by decide)
  have n2 := fun v => setInput_inputs_of_ne s "C0" "Weight" v (by decide)
  have n3 := fun v => setInput_inputs_of_ne s "C0" "ProjWeight" v (by decide)
  have n4 := fun v => setInput_inputs_of_ne s "C0" "Bias" v (by decide)
  have n5 := fun v => setInput_inputs_of_ne s "C0" "H0" v (by decide)
  have hc2 : ForwardChecks (s.setInput "C0" (some c2)) inp w pw b T c P D pe := by
    refine ⟨?_, ?_, ?_, ?_, hc.outProjection, hc.outCell, hc.outBatchGate,
      hc.outBatchCellPreAct, hc.outBatchHidden, hc.in_dims, hc.frame_size,
      hc.w_dims, hc.proj_dims, ?_, hc.use_peepholes, hc.b_dims⟩
    · rw [n1, ← n1 (some c1)]; exact hc.input
    · rw [n2, ← n2 (some c1)]; exact hc.weight
    · rw [n3, ← n3 (some c1)]; exact hc.projWeight
    · rw [n4, ← n4 (some c1)]; exact hc.bias
    · intro h0 hh0
      rw [n5, ← n5 (some c1)] at hh0
      obtain ⟨-, hN, oO⟩ := hc.h0 h0 hh0
      exact ⟨by rw [setInput_inputs_self]; rfl, hN, oO⟩
  refine ⟨_, forward_intro _ inp w pw b T c P D pe hc2, ?_⟩
  rw [ht]
  apply forwardResult_outputs_congr
  · rfl
  · rw [n5, n5]

/-! ## The claims -/

/-- C1. Whenever forward shape inference returns, the shape recorded for
`Projection` is `(T, P)` and the shape recorded for `Cell` is `(T, D)`, where
`T` is the first extent of `Input`, `P` the second extent of `ProjWeight` and
`D` the first extent of `ProjWeight`. -/
theorem forward_output_dims (ctx : InferShapeContext)
    (h : (LSTMPOp.InferShape ctx).1 = .ok ()) :
    ∃ inp pw pr ce T c D P,
      ctx.inputs "Input" = some inp ∧ inp.dims = [T, c]
      ∧ ctx.inputs "ProjWeight" = some pw ∧ pw.dims = [D, P]
      ∧ (LSTMPOp.InferShape ctx).2.outputs "Projection" = some pr ∧ pr.dims = [T, P]
      ∧ (LSTMPOp.InferShape ctx).2.outputs "Cell" = some ce ∧ ce.dims = [T, D] := by
  obtain ⟨inp, w, pw, b, T, c, P, D, pe, hc, ht⟩ :=
    forward_elim ctx _ (Exec.eq_of_fst_ok _ ctx h)
  obtain ⟨pr, hpr⟩ := Option.isSome_iff_exists.1 hc.outProjection
  obtain ⟨ce, hce⟩ := Option.isSome_iff_exists.1 hc.outCell
  refine ⟨inp, pw, ⟨[T, P], inp.lod⟩, ⟨[T, D], inp.lod⟩, T, c, D, P, hc.input, hc.in_dims,
    hc.projWeight, hc.proj_dims, ?_, rfl, ?_, rfl⟩
  · rw [ht, forwardResult_Projection, hpr]; rfl
  · rw [ht, forwardResult_Cell, hce]; rfl

/-- Witness for C1 on a call with `T = 3`, `D = 2`, `P = 5`; and what the call
on `ctxWide` records, where the `int` product `4 * frame_size` leaves the range
of `int` and the call returns all the same. -/
theorem forward_output_dims_witness :
    (LSTMPOp.InferShape ctxPlain).1 = .ok ()
    ∧ (∃ inp pw pr ce T c D P,
      ctxPlain.inputs "Input" = some inp ∧ inp.dims = [T, c]
      ∧ ctxPlain.inputs "ProjWeight" = some pw ∧ pw.dims = [D, P]
      ∧ (LSTMPOp.InferShape ctxPlain).2.outputs "Projection" = some pr ∧ pr.dims = [T, P]
      ∧ (LSTMPOp.InferShape ctxPlain).2.outputs "Cell" = some ce ∧ ce.dims = [T, D])
    ∧ (LSTMPOp.InferShape ctxWide).1 = .ok ()
    ∧ (LSTMPOp.InferShape ctxWide).2.outputs "Projection"
        = some { dims := [3, 5], lod := [[0, 1, 3]] }
    ∧ (LSTMPOp.InferShape ctxWide).2.outputs "Cell"
        = some { dims := [3, 1073741824], lod := [[0, 1, 3]] } :=
  ⟨rfl, forward_output_dims ctxPlain rfl, rfl, rfl, rfl⟩

/-- C2. The forward call on `ctxOdd` returns although `Input` is `3 x 9` and
`ProjWeight` is `2 x 5` (so `D = 2` and `4 * D = 8`): the code takes
`frame_size = in_dims[1] / 4` and never compares `in_dims[1]` with
`4 * frame_size`.  Hence it is not true that every returning forward call has an
`Input` whose second extent is `4 * D`. -/
theorem input_width_unchecked :
    (LSTMPOp.InferShape ctxOdd).1 = .ok ()
    ∧ ctxOdd.inputs "Input" = some { dims := [3, 9], lod := [[0, 1, 3]] }
    ∧ ctxOdd.inputs "Weight" = some { dims := [5, 8], lod := [] }
    ∧ ctxOdd.inputs "ProjWeight" = some { dims := [2, 5], lod := [] }
    ∧ (LSTMPOp.InferShape ctxOdd).2.outputs "BatchGate" = some { dims := [3, 9], lod := [] }
    ∧ (LSTMPOp.InferShape ctxOdd).2.outputs "Cell" = some { dims := [3, 2], lod := [[0, 1, 3]] }
    ∧ ¬ ∀ ctx : InferShapeContext, (LSTMPOp.InferShape ctx).1 = .ok () →
      ∃ inp pw T c D P, ctx.inputs "Input" = some inp ∧ inp.dims = [T, c]
        ∧ ctx.inputs "ProjWeight" = some pw ∧ pw.dims = [D, P] ∧ c = 4 * D := by
  refine ⟨rfl, rfl, rfl, rfl, rfl, rfl, ?_⟩
  intro hall
  obtain ⟨inp, pw, T, c, D, P, hi, hid, hp, hpd, hc⟩ := hall ctxOdd rfl
  have e1 : inp = { dims := [3, 9], lod := [[0, 1, 3]] } := (Option.some.inj hi).symm
  have e2 : pw = { dims := [2, 5], lod := [] } := (Option.some.inj hp).symm
  subst e1 e2
  simp only [List.cons.injEq, and_true] at hid hpd
  obtain ⟨-, rfl⟩ := hid
  obtain ⟨rfl, -⟩ := hpd
  omega

/-- C5. A forward call in which `H0` is given and `C0` is not never returns:
it ends in a failure, with the context untouched, whatever the rest of the
context is. -/
theorem h0_without_c0_rejected (ctx : InferShapeContext)
    (hH0 : (ctx.inputs "H0").isSome = true) (hC0 : ctx.inputs "C0" = none) :
    ∃ e, LSTMPOp.InferShape ctx = (.error e, ctx) := by
  cases hr : (LSTMPOp.InferShape ctx).1 with
  | error e =>
    have hx : LSTMPOp.InferShape ctx = (.error e, (LSTMPOp.InferShape ctx).2) :=
      Prod.ext hr rfl
    rcases forward_error_exit ctx _ e hx with ht | ⟨d, -, -, hc⟩
    · rw [ht] at hx
      exact ⟨e, hx⟩
    · rw [hC0] at hc
      cases hc
  | ok u =>
    obtain ⟨inp, w, pw, b, T, c, P, D, pe, hc, -⟩ :=
      forward_elim ctx _ (Exec.eq_of_fst_ok _ ctx hr)
    obtain ⟨h, hh⟩ := Option.isSome_iff_exists.1 hH0
    have := (hc.h0 h hh).1
    rw [hC0] at this
    cases this

/-- Witness for C5: the call on `ctxNoC0` fails at the `C0` check. -/
theorem h0_without_c0_rejected_witness :
    (ctxNoC0.inputs "H0").isSome = true ∧ ctxNoC0.inputs "C0" = none
    ∧ (∃ e, LSTMPOp.InferShape ctxNoC0 = (.error e, ctxNoC0))
    ∧ (LSTMPOp.InferShape ctxNoC0).1 = .error (.EnforceNotMet
        "Input(C0) of LSTMP operator should not be null after Input(H0) provided.") :=
  ⟨rfl, rfl, h0_without_c0_rejected ctxNoC0 rfl rfl, rfl⟩

/-- C6. A missing required slot is always rejected.  The forward call fails
(`EnforceNotMet`, context untouched) when one of the inputs `Input`, `Weight`,
`ProjWeight`, `Bias` or one of the outputs `Projection`, `Cell`, `BatchGate`,
`BatchCellPreAct`, `BatchHidden` is absent; the backward call does so when one
of the inputs `Input`, `Projection`, `Cell`, `Weight`, `ProjWeight`, `Bias`,
`BatchGate`, `BatchCellPreAct` is absent. -/
theorem missing_slot_rejected (ctx : InferShapeContext) :
    (∀ n ∈ forwardRequiredInputs, ctx.inputs n = none →
      ∃ msg, LSTMPOp.InferShape ctx = (.error (.EnforceNotMet msg), ctx))
    ∧ (∀ n ∈ forwardRequiredOutputs, ctx.outputs n = none →
      ∃ msg, LSTMPOp.InferShape ctx = (.error (.EnforceNotMet msg), ctx))
    ∧ (∀ n ∈ backwardRequired, ctx.inputs n = none →
      ∃ msg, LSTMPGradOp.InferShape ctx = (.error (.EnforceNotMet msg), ctx)) := by
  refine ⟨?_, ?_, ?_⟩
  · intro n hn hnone
    apply forward_missing_slot
    simp only [forwardRequiredInputs, List.mem_cons, List.mem_singleton, List.mem_nil_iff,
      or_false] at hn
    rcases hn with rfl | rfl | rfl | rfl <;> simp [hnone]
  · intro n hn hnone
    apply forward_missing_slot
    simp only [forwardRequiredOutputs, List.mem_cons, List.mem_singleton, List.mem_nil_iff,
      or_false] at hn
    rcases hn with rfl | rfl | rfl | rfl | rfl <;> simp [hnone]
  · intro n hn hnone
    apply backward_missing_slot
    simp only [backwardRequired, List.mem_cons, List.mem_singleton, List.mem_nil_iff,
      or_false] at hn
    rcases hn with rfl | rfl | rfl | rfl | rfl | rfl | rfl | rfl <;> simp [hnone]

/-- Witness for C6: `ctxGrad` has no output `Cell`, so the forward call on it is
rejected; `ctxPlain` has no input `BatchGate`, so the backward call on it is
rejected. -/
theorem missing_slot_rejected_witness :
    ctxGrad.outputs "Cell" = none ∧ ctxPlain.inputs "BatchGate" = none
    ∧ (∃ msg, LSTMPOp.InferShape (ctxPlain.setInput "Bias" none)
        = (.error (.EnforceNotMet msg), ctxPlain.setInput "Bias" none))
    ∧ (∃ msg, LSTMPOp.InferShape ctxGrad = (.error (.EnforceNotMet msg), ctxGrad))
    ∧ (∃ msg, LSTMPGradOp.InferShape ctxPlain = (.error (.EnforceNotMet msg), ctxPlain)) :=
  ⟨rfl, rfl,
    (missing_slot_rejected (ctxPlain.setInput "Bias" none)).1 "Bias"
      (by simp [forwardRequiredInputs]) rfl,
    (missing_slot_rejected ctxGrad).2.1 "Cell" (by simp [forwardRequiredOutputs]) rfl,
    (missing_slot_rejected ctxPlain).2.2 "BatchGate" (by simp [backwardRequired]) rfl⟩

/-- C7. Whenever backward shape inference returns, for each `X` among `Input`,
`Weight`, `ProjWeight`, `Bias`, `H0`, `C0`: when the gradient slot of `X` was
requested, input `X` is present and the slot holds the shape of input `X` (its
offset table as before); when it was not requested, it is still empty; and every
output slot other than these six is as it was before the call. -/
theorem grad_dims (ctx : InferShapeContext) (h : (LSTMPGradOp.InferShape ctx).1 = .ok ()) :
    (∀ X ∈ gradNames,
      (∀ g, ctx.outputs (GradVarName X) = some g →
        ∃ v, ctx.inputs X = some v
          ∧ (LSTMPGradOp.InferShape ctx).2.outputs (GradVarName X)
              = some { g with dims := v.dims })
      ∧ (ctx.outputs (GradVarName X) = none →
          (LSTMPGradOp.InferShape ctx).2.outputs (GradVarName X) = none))
    ∧ (∀ n, (∀ X ∈ gradNames, n ≠ GradVarName X) →
        (LSTMPGradOp.InferShape ctx).2.outputs n = ctx.outputs n) := by
  obtain ⟨-, hreq, ht⟩ := backward_elim ctx _ (Exec.eq_of_fst_ok _ ctx h)
  rw [ht]
  refine ⟨fun X hX => ⟨?_, ?_⟩, fun n hn => backwardResult_frame ctx n hn⟩
  · intro g hg
    have hin := hreq X hX (by rw [hg]; rfl)
    obtain ⟨v, hv⟩ := Option.isSome_iff_exists.1 hin
    refine ⟨v, hv, ?_⟩
    rw [backwardResult_grad ctx X hX, hv, hg]
    rfl
  · intro hnone
    rw [backwardResult_grad ctx X hX, hnone]
    cases ctx.inputs X <;> rfl

/-- Witness for C7 on `ctxGrad`, where the gradients of `Input`, `Weight` and
`H0` are requested and those of `ProjWeight`, `Bias` and `C0` are not. -/
theorem grad_dims_witness :
    (LSTMPGradOp.InferShape ctxGrad).1 = .ok ()
    ∧ ((∀ X ∈ gradNames,
      (∀ g, ctxGrad.outputs (GradVarName X) = some g →
        ∃ v, ctxGrad.inputs X = some v
          ∧ (LSTMPGradOp.InferShape ctxGrad).2.outputs (GradVarName X)
              = some { g with dims := v.dims })
      ∧ (ctxGrad.outputs (GradVarName X) = none →
          (LSTMPGradOp.InferShape ctxGrad).2.outputs (GradVarName X) = none))
    ∧ (∀ n, (∀ X ∈ gradNames, n ≠ GradVarName X) →
        (LSTMPGradOp.InferShape ctxGrad).2.outputs n = ctxGrad.outputs n))
    ∧ (LSTMPGradOp.InferShape ctxGrad).2.outputs "Weight@GRAD"
        = some { dims := [5, 8], lod := [] }
    ∧ (LSTMPGradOp.InferShape ctxGrad).2.outputs "Bias@GRAD" = none :=
  ⟨rfl, grad_dims ctxGrad rfl, rfl, rfl⟩

/-- C8. Whenever forward shape inference returns, the offset tables recorded
for `Projection` and for `Cell` are both the offset table of `Input`, and the
offset table of every other output is as it was before the call. -/
theorem lod_shared (ctx : InferShapeContext) (h : (LSTMPOp.InferShape ctx).1 = .ok ()) :
    ∃ inp, ctx.inputs "Input" = some inp
      ∧ ((LSTMPOp.InferShape ctx).2.outputs "Projection").map Variable.lod = some inp.lod
      ∧ ((LSTMPOp.InferShape ctx).2.outputs "Cell").map Variable.lod = some inp.lod
      ∧ ∀ n, n ≠ "Projection" → n ≠ "Cell" →
          ((LSTMPOp.InferShape ctx).2.outputs n).map Variable.lod
            = (ctx.outputs n).map Variable.lod := by
  obtain ⟨inp, w, pw, b, T, c, P, D, pe, hc, ht⟩ :=
    forward_elim ctx _ (Exec.eq_of_fst_ok _ ctx h)
  obtain ⟨pr, hpr⟩ := Option.isSome_iff_exists.1 hc.outProjection
  obtain ⟨ce, hce⟩ := Option.isSome_iff_exists.1 hc.outCell
  rw [ht]
  refine ⟨inp, hc.input, ?_, ?_, fun n h1 h2 => forwardResult_lod_of_ne ctx inp T P D n h1 h2⟩
  · rw [forwardResult_Projection, hpr]; rfl
  · rw [forwardResult_Cell, hce]; rfl

/-- Witness for C8 on `ctxPlain`, whose `Input` has offset table `[[0, 1, 3]]`. -/
theorem lod_shared_witness :
    (LSTMPOp.InferShape ctxPlain).1 = .ok ()
    ∧ (∃ inp, ctxPlain.inputs "Input" = some inp
      ∧ ((LSTMPOp.InferShape ctxPlain).2.outputs "Projection").map Variable.lod = some inp.lod
      ∧ ((LSTMPOp.InferShape ctxPlain).2.outputs "Cell").map Variable.lod = some inp.lod
      ∧ ∀ n, n ≠ "Projection" → n ≠ "Cell" →
          ((LSTMPOp.InferShape ctxPlain).2.outputs n).map Variable.lod
            = (ctxPlain.outputs n).map Variable.lod)
    ∧ ((LSTMPOp.InferShape ctxPlain).2.outputs "Cell").map Variable.lod = some [[0, 1, 3]] :=
  ⟨rfl, lod_shared ctxPlain rfl, rfl⟩

/-- C9, as stated, fails: the schema declares no attribute called
`projection_activation`. -/
theorem make_no_projection_activation :
    LSTMPOpMaker.Make.attr "projection_activation" = none := by
  decide

/-- C9, amended.  The schema built by `Make` declares exactly the attributes
`use_peepholes` (bool, default true), `is_reverse` (bool, default false),
`gate_activation`, `cell_activation`, `candidate_activation` and
`proj_activation`; the last four are strings with defaults `sigmoid`, `tanh`,
`tanh`, `tanh` and each accepts exactly `sigmoid`, `tanh`, `relu`, `identity`. -/
theorem make_attrs :
    LSTMPOpMaker.Make.attrs.map AttrProto.name
      = ["use_peepholes", "is_reverse", "gate_activation", "cell_activation",
         "candidate_activation", "proj_activation"]
    ∧ LSTMPOpMaker.Make.attr "use_peepholes"
      = some { name := "use_peepholes", type := .BOOLEAN, default := some (.bool true),
               in_enum := none }
    ∧ LSTMPOpMaker.Make.attr "is_reverse"
      = some { name := "is_reverse", type := .BOOLEAN, default := some (.bool false),
               in_enum := none }
    ∧ ∀ nd ∈ [("gate_activation", "sigmoid"), ("cell_activation", "tanh"),
          ("candidate_activation", "tanh"), ("proj_activation", "tanh")],
        ∃ a, LSTMPOpMaker.Make.attr nd.1 = some a ∧ a.type = .STRING
          ∧ a.default = some (.str nd.2)
          ∧ (∀ b : Bool, a.accepts (.bool b) = false)
          ∧ ∀ v : String, a.accepts (.str v) = true
              ↔ v ∈ ["sigmoid", "tanh", "relu", "identity"] := by
  refine ⟨by decide, by decide, by decide, ?_⟩
  intro nd hnd
  simp only [List.mem_cons, List.mem_singleton, List.mem_nil_iff, or_false] at hnd
  rcases hnd with rfl | rfl | rfl | rfl
  · refine ⟨⟨"gate_activation", .STRING, some (.str "sigmoid"),
      some ["sigmoid", "tanh", "relu", "identity"]⟩, by decide, rfl, rfl, fun b => rfl, ?_⟩
    intro v; simp [AttrProto.accepts]
  · refine ⟨⟨"cell_activation", .STRING, some (.str "tanh"),
      some ["sigmoid", "tanh", "relu", "identity"]⟩, by decide, rfl, rfl, fun b => rfl, ?_⟩
    intro v; simp [AttrProto.accepts]
  · refine ⟨⟨"candidate_activation", .STRING, some (.str "tanh"),
      some ["sigmoid", "tanh", "relu", "identity"]⟩, by decide, rfl, rfl, fun b => rfl, ?_⟩
    intro v; simp [AttrProto.accepts]
  · refine ⟨⟨"proj_activation", .STRING, some (.str "tanh"),
      some ["sigmoid", "tanh", "relu", "identity"]⟩, by decide, rfl, rfl, fun b => rfl, ?_⟩
    intro v; simp [AttrProto.accepts]

/-- C10. Whenever forward shape inference returns: when `H0` is present, the
shape recorded for `OrderedP0` is `(N, P)` with `N` the first extent of `H0` and
`P` the second extent of `ProjWeight`; when `H0` is absent, `OrderedP0` is as it
was before the call. -/
theorem ordered_p0_dims (ctx : InferShapeContext) (h : (LSTMPOp.InferShape ctx).1 = .ok ()) :
    (∀ h0, ctx.inputs "H0" = some h0 →
      ∃ pw o N D P, h0.dims.get? 0 = some N ∧ ctx.inputs "ProjWeight" = some pw
        ∧ pw.dims = [D, P]
        ∧ (LSTMPOp.InferShape ctx).2.outputs "OrderedP0" = some o ∧ o.dims = [N, P])
    ∧ (ctx.inputs "H0" = none →
        (LSTMPOp.InferShape ctx).2.outputs "OrderedP0" = ctx.outputs "OrderedP0") := by
  obtain ⟨inp, w, pw, b, T, c, P, D, pe, hc, ht⟩ :=
    forward_elim ctx _ (Exec.eq_of_fst_ok _ ctx h)
  rw [ht, forwardResult_OrderedP0]
  constructor
  · intro h0 hh0
    obtain ⟨-, ⟨N, hN⟩, oO⟩ := hc.h0 h0 hh0
    obtain ⟨o, ho⟩ := Option.isSome_iff_exists.1 oO
    have hhead : h0.dims.headD 0 = N := by
      cases hd : h0.dims with
      | nil => rw [hd] at hN; simp at hN
      | cons a l => rw [hd] at hN; simpa using hN
    refine ⟨pw, { o with dims := [N, P] }, N, D, P, hN, hc.projWeight, hc.proj_dims, ?_, rfl⟩
    simp only [afterH0, hh0, withDim_outputs, if_true, ho, hhead, Option.map_some']
  · intro hnone
    simp only [afterH0, hnone]

/-- Witness for C10: on `ctxInit` (`H0` is `2 x 5`, `P = 5`) the shape recorded
for `OrderedP0` is `[2, 5]`; on `ctxPlain` (no `H0`) it stays blank. -/
theorem ordered_p0_dims_witness :
    (LSTMPOp.InferShape ctxInit).1 = .ok ()
    ∧ ((∀ h0, ctxInit.inputs "H0" = some h0 →
      ∃ pw o N D P, h0.dims.get? 0 = some N ∧ ctxInit.inputs "ProjWeight" = some pw
        ∧ pw.dims = [D, P]
        ∧ (LSTMPOp.InferShape ctxInit).2.outputs "OrderedP0" = some o ∧ o.dims = [N, P])
    ∧ (ctxInit.inputs "H0" = none →
        (LSTMPOp.InferShape ctxInit).2.outputs "OrderedP0" = ctxInit.outputs "OrderedP0"))
    ∧ (LSTMPOp.InferShape ctxInit).2.outputs "OrderedP0" = some { dims := [2, 5], lod := [] }
    ∧ (LSTMPOp.InferShape ctxPlain).2.outputs "OrderedP0" = some blank :=
  ⟨rfl, ordered_p0_dims ctxInit rfl, rfl, rfl⟩

/-- C11. The claim that no out-of-range read of `ProjWeight` is reachable once
the required slots are present and `Input`, `Weight` have rank 2 fails: line 56
reads `proj_dims[1]` before the rank check of line 65.  On `ctxRank1`
(`ProjWeight` of rank 1) and on `ctxRank0` (rank 0) the call ends in the
`std::invalid_argument` of that read, not in the `EnforceNotMet` of the rank
check. -/
theorem projweight_read_before_rank_check :
    ctxRank1.inputs "Input" = some { dims := [3, 8], lod := [[0, 1, 3]] }
    ∧ ctxRank1.inputs "Weight" = some { dims := [5, 8], lod := [] }
    ∧ ctxRank1.inputs "ProjWeight" = some { dims := [2], lod := [] }
    ∧ LSTMPOp.InferShape ctxRank1 = (.error (.invalid_argument "Invalid index"), ctxRank1)
    ∧ ctxRank0.inputs "ProjWeight" = some { dims := [], lod := [] }
    ∧ LSTMPOp.InferShape ctxRank0 = (.error (.invalid_argument "Invalid index"), ctxRank0)
    ∧ ¬ ∀ ctx : InferShapeContext,
        (∀ n ∈ forwardRequiredInputs, (ctx.inputs n).isSome = true) →
        (∀ n ∈ forwardRequiredOutputs, (ctx.outputs n).isSome = true) →
        (∀ n ∈ ["Input", "Weight", "Bias"], ∀ v, ctx.inputs n = some v → v.dims.size = 2) →
        ctx.inputs "H0" = none →
        ∀ msg, (LSTMPOp.InferShape ctx).1 ≠ .error (.invalid_argument msg) := by
  have e1 : LSTMPOp.InferShape ctxRank1
      = (.error (.invalid_argument "Invalid index"), ctxRank1) :=
    forward_low_rank_projweight ctxRank1 _ _ _ rfl rfl rfl rfl rfl rfl rfl rfl rfl rfl rfl
      (by decide)
  have e0 : LSTMPOp.InferShape ctxRank0
      = (.error (.invalid_argument "Invalid index"), ctxRank0) :=
    forward_low_rank_projweight ctxRank0 _ _ _ rfl rfl rfl rfl rfl rfl rfl rfl rfl rfl rfl
      (by decide)
  refine ⟨rfl, rfl, rfl, e1, rfl, e0, ?_⟩
  intro hall
  refine hall ctxRank1 ?_ ?_ ?_ rfl "Invalid index" (by rw [e1])
  · intro n hn
    simp only [forwardRequiredInputs, List.mem_cons, List.mem_singleton, List.mem_nil_iff,
      or_false] at hn
    rcases hn with rfl | rfl | rfl | rfl <;> rfl
  · intro n hn
    simp only [forwardRequiredOutputs, List.mem_cons, List.mem_singleton, List.mem_nil_iff,
      or_false] at hn
    rcases hn with rfl | rfl | rfl | rfl | rfl <;> rfl
  · intro n hn v hv
    simp only [List.mem_cons, List.mem_singleton, List.mem_nil_iff, or_false] at hn
    rcases hn with rfl | rfl | rfl <;> cases hv <;> rfl

/-- C12. Whenever forward shape inference fails, every output other than
`OrderedP0` is exactly as it was before the call; in particular so are
`Projection`, `Cell`, `BatchGate`, `BatchCellPreAct` and `BatchHidden`, shapes
and offset tables alike.  Of `OrderedP0` only the shape can have changed. -/
theorem failure_keeps_outputs (ctx : InferShapeContext) (e : Failure)
    (h : (LSTMPOp.InferShape ctx).1 = .error e) :
    (∀ n ∈ forwardRequiredOutputs, (LSTMPOp.InferShape ctx).2.outputs n = ctx.outputs n)
    ∧ (∀ n, n ≠ "OrderedP0" → (LSTMPOp.InferShape ctx).2.outputs n = ctx.outputs n)
    ∧ ((LSTMPOp.InferShape ctx).2.outputs "OrderedP0").map Variable.lod
        = (ctx.outputs "OrderedP0").map Variable.lod := by
  have hx := forward_error_exit ctx (LSTMPOp.InferShape ctx).2 e (Prod.ext h rfl)
  have key : ∀ n, n ≠ "OrderedP0" → (LSTMPOp.InferShape ctx).2.outputs n = ctx.outputs n := by
    intro n hn
    rcases hx with hx | ⟨d, hx, -, -⟩
    · rw [hx]
    · rw [hx, withDim_outputs, if_neg hn]
  refine ⟨?_, key, ?_⟩
  · intro n hn
    apply key
    simp only [forwardRequiredOutputs, List.mem_cons, List.mem_singleton, List.mem_nil_iff,
      or_false] at hn
    rcases hn with rfl | rfl | rfl | rfl | rfl <;> decide
  · rcases hx with hx | ⟨d, hx, -, -⟩
    · rw [hx]
    · rw [hx, withDim_lod]

/-- Witness for C12: the call on `ctxBadBias` fails at the `Bias` check after the
`H0` block has written `OrderedP0`; the other outputs are still blank. -/
theorem failure_keeps_outputs_witness :
    (LSTMPOp.InferShape ctxBadBias).1 = .error (.EnforceNotMet
      "The second dimension of Input(Bias) should be 7 * %d if enable peepholes connection")
    ∧ ((∀ n ∈ forwardRequiredOutputs,
        (LSTMPOp.InferShape ctxBadBias).2.outputs n = ctxBadBias.outputs n)
      ∧ (∀ n, n ≠ "OrderedP0" →
        (LSTMPOp.InferShape ctxBadBias).2.outputs n = ctxBadBias.outputs n)
      ∧ ((LSTMPOp.InferShape ctxBadBias).2.outputs "OrderedP0").map Variable.lod
          = (ctxBadBias.outputs "OrderedP0").map Variable.lod)
    ∧ (LSTMPOp.InferShape ctxBadBias).2.outputs "OrderedP0" = some { dims := [2, 5], lod := [] }
    ∧ (LSTMPOp.InferShape ctxBadBias).2.outputs "Projection" = some blank :=
  ⟨rfl, failure_keeps_outputs ctxBadBias _ rfl, rfl, rfl⟩

/-- C13. Whenever forward shape inference returns, the shape recorded for
`BatchGate` is the shape of `Input`, and the shapes recorded for
`BatchCellPreAct` and `BatchHidden` are both `(T, D)`, with `T` the first extent
of `Input` and `D` the first extent of `ProjWeight`. -/
theorem trace_dims (ctx : InferShapeContext) (h : (LSTMPOp.InferShape ctx).1 = .ok ()) :
    ∃ inp pw bg bc bh T c D P,
      ctx.inputs "Input" = some inp ∧ inp.dims = [T, c]
      ∧ ctx.inputs "ProjWeight" = some pw ∧ pw.dims = [D, P]
      ∧ (LSTMPOp.InferShape ctx).2.outputs "BatchGate" = some bg ∧ bg.dims = [T, c]
      ∧ (LSTMPOp.InferShape ctx).2.outputs "BatchCellPreAct" = some bc ∧ bc.dims = [T, D]
      ∧ (LSTMPOp.InferShape ctx).2.outputs "BatchHidden" = some bh ∧ bh.dims = [T, D] := by
  obtain ⟨inp, w, pw, b, T, c, P, D, pe, hc, ht⟩ :=
    forward_elim ctx _ (Exec.eq_of_fst_ok _ ctx h)
  obtain ⟨bg, hbg⟩ := Option.isSome_iff_exists.1 hc.outBatchGate
  obtain ⟨bc, hbc⟩ := Option.isSome_iff_exists.1 hc.outBatchCellPreAct
  obtain ⟨bh, hbh⟩ := Option.isSome_iff_exists.1 hc.outBatchHidden
  refine ⟨inp, pw, { bg with dims := inp.dims }, { bc with dims := [T, D] },
    { bh with dims := [T, D] }, T, c, D, P, hc.input, hc.in_dims, hc.projWeight,
    hc.proj_dims, ?_, hc.in_dims, ?_, rfl, ?_, rfl⟩
  · rw [ht, forwardResult_BatchGate, hbg]; rfl
  · rw [ht, forwardResult_BatchCellPreAct, hbc]; rfl
  · rw [ht, forwardResult_BatchHidden, hbh]; rfl

/-- Witness for C13 on a call with `T = 3`, `D = 2`, `Input` of shape `[3, 8]`. -/
theorem trace_dims_witness :
    (LSTMPOp.InferShape ctxPlain).1 = .ok ()
    ∧ (∃ inp pw bg bc bh T c D P,
      ctxPlain.inputs "Input" = some inp ∧ inp.dims = [T, c]
      ∧ ctxPlain.inputs "ProjWeight" = some pw ∧ pw.dims = [D, P]
      ∧ (LSTMPOp.InferShape ctxPlain).2.outputs "BatchGate" = some bg ∧ bg.dims = [T, c]
      ∧ (LSTMPOp.InferShape ctxPlain).2.outputs "BatchCellPreAct" = some bc ∧ bc.dims = [T, D]
      ∧ (LSTMPOp.InferShape ctxPlain).2.outputs "BatchHidden" = some bh ∧ bh.dims = [T, D])
    ∧ (LSTMPOp.InferShape ctxPlain).2.outputs "BatchGate" = some { dims := [3, 8], lod := [] }
    ∧ (LSTMPOp.InferShape ctxPlain).2.outputs "BatchHidden"
        = some { dims := [3, 2], lod := [] }
    ∧ (LSTMPOp.InferShape ctxWide).2.outputs "BatchGate"
        = some { dims := [3, 4294967296], lod := [] }
    ∧ (LSTMPOp.InferShape ctxWide).2.outputs "BatchCellPreAct"
        = some { dims := [3, 1073741824], lod := [] } :=
  ⟨rfl, trace_dims ctxPlain rfl, rfl, rfl, rfl, rfl⟩

/-- C14. Forward shape inference does not depend on the shape of `C0`: for two
contexts that differ only in the variable bound to `C0`, one call returns exactly
when the other does, and when they return every output slot holds the same
shape and offset table in both. -/
theorem c0_shape_ignored (ctx : InferShapeContext) (c1 c2 : Variable) :
    ((LSTMPOp.InferShape (ctx.setInput "C0" (some c1))).1 = .ok ()
      ↔ (LSTMPOp.InferShape (ctx.setInput "C0" (some c2))).1 = .ok ())
    ∧ ((LSTMPOp.InferShape (ctx.setInput "C0" (some c1))).1 = .ok () →
        (LSTMPOp.InferShape (ctx.setInput "C0" (some c1))).2.outputs
          = (LSTMPOp.InferShape (ctx.setInput "C0" (some c2))).2.outputs) := by
  have step : ∀ a b : Variable,
      (LSTMPOp.InferShape (ctx.setInput "C0" (some a))).1 = .ok () →
      (LSTMPOp.InferShape (ctx.setInput "C0" (some b))).1 = .ok ()
      ∧ (LSTMPOp.InferShape (ctx.setInput "C0" (some b))).2.outputs
          = (LSTMPOp.InferShape (ctx.setInput "C0" (some a))).2.outputs := by
    intro a b ha
    obtain ⟨t2, h2, ho⟩ := forward_rebind_c0 ctx a b _ (Exec.eq_of_fst_ok _ _ ha)
    rw [h2]
    exact ⟨rfl, ho⟩
  exact ⟨⟨fun h => (step c1 c2 h).1, fun h => (step c2 c1 h).1⟩,
    fun h => (step c1 c2 h).2.symm⟩

/-- Witness for C14: `ctxInit` has `C0` of shape `[2, 2]`; with a `C0` of shape
`[7, 9, 4]` in its place the call still returns, with the same outputs. -/
theorem c0_shape_ignored_witness :
    (LSTMPOp.InferShape (ctxInit.setInput "C0" (some { dims := [2, 2], lod := [] }))).1 = .ok ()
    ∧ (LSTMPOp.InferShape
        (ctxInit.setInput "C0" (some { dims := [7, 9, 4], lod := [] }))).1 = .ok ()
    ∧ (LSTMPOp.InferShape (ctxInit.setInput "C0" (some { dims := [2, 2], lod := [] }))).2.outputs
        = (LSTMPOp.InferShape
            (ctxInit.setInput "C0" (some { dims := [7, 9, 4], lod := [] }))).2.outputs :=
  ⟨rfl,
    (c0_shape_ignored ctxInit { dims := [2, 2], lod := [] } { dims := [7, 9, 4], lod := [] }).1.1
      rfl,
    (c0_shape_ignored ctxInit { dims := [2, 2], lod := [] } { dims := [7, 9, 4], lod := [] }).2
      rfl⟩

end paddle
